import Mathlib

/-!
# prbot: pull-request notification bot

A shallow embedding of `main.go` (functions `getNotifications`, `notifySlack`,
`forPRChange`, `autoSetup`) and the properties of it that can be settled.

Modelling conventions

* Go strings are Lean `String`s; the two `strings` helpers the program calls
  with the one-byte argument `"/"` are modelled on the character `/`.
* Go `int` is 64 bits wide; `strconv.Atoi` reports a range error outside it.
* `time.Time` is an integer number of nanoseconds, `time.Second` is `10^9`.
* A Go pointer is an `Option`; dereferencing `none` is a run-time panic.
* Every call the program makes to a collaborator (GitHub API, git, Slack
  webhook, standard output) is recorded in a trace, in program order. The
  answers of the collaborators are inputs of the model (`World`).
* A Go function ends in one of three ways: it returns, it panics, or it never
  returns (`Outcome`).
-/

namespace Prbot

/-! ## Go values -/

/-- Go `error` values. `strconv.Atoi` produces the first (a `*NumError` with
the offending input; whether it wraps `ErrSyntax` or `ErrRange` is not
modelled); every other error comes from a collaborator. -/
inductive GoError where
  | numError (input : String)
  | external (msg : String)
  deriving DecidableEq, Repr

deriving instance DecidableEq for Except

/-- The function `errors.Trace` of juju/errors: the returned error has the same
cause and message; the recorded source location is not modelled. -/
def errorsTrace (e : GoError) : GoError := e

/-- Run-time panics of the Go runtime that the program can raise. -/
inductive Panic where
  | nilDereference
  | indexOutOfRange (index length : Nat)
  deriving DecidableEq, Repr

/-- How a call of a Go function ends. -/
inductive Outcome (α : Type) where
  | ret (a : α)
  | panic (p : Panic)
  | hang
  deriving DecidableEq, Repr

/-- Instants (`time.Time`) and durations (`time.Duration`) in nanoseconds. -/
abbrev Time := Int

/-- The constant `time.Second`. -/
def timeSecond : Int := 1000000000

/-- The method `Time.Add`. -/
def timeAdd (t : Time) (d : Int) : Time := t + d

/-! ## `strings` and `strconv` -/

/-- Remove the leading and the trailing occurrences of `cut`. -/
def trimChars (cut : Char) (l : List Char) : List Char :=
  List.rdropWhile (fun c => c == cut) (List.dropWhile (fun c => c == cut) l)

/-- The function `strings.Trim(s, cutset)` for a cutset of one character: `s`
without its leading and trailing occurrences of that character. -/
def stringsTrim (s : String) (cut : Char) : String :=
  String.mk (trimChars cut s.data)

/-- The substrings of `l` between the occurrences of `sep`. The result is never
empty: a list without `sep` gives the list itself as the only piece. -/
def splitChars (sep : Char) : List Char → List (List Char)
  | [] => [[]]
  | c :: cs =>
    if c = sep then [] :: splitChars sep cs
    else
      match splitChars sep cs with
      | [] => [[c]]
      | p :: ps => (c :: p) :: ps

/-- The function `strings.Split(s, sep)` for a separator of one character. -/
def stringsSplit (s : String) (sep : Char) : List String :=
  (splitChars sep s.data).map String.mk

/-- The function `strings.Join(elems, sep)`. -/
def stringsJoin (elems : List String) (sep : String) : String :=
  sep.intercalate elems

/-- Whether `c` is one of `0` .. `9`. -/
def isDecimalDigit (c : Char) : Bool := 48 ≤ c.toNat && c.toNat ≤ 57

/-- Value of a string of decimal digits, most significant digit first. -/
def digitsValue (ds : List Char) : Nat :=
  ds.foldl (fun acc c => acc * 10 + (c.toNat - 48)) 0

/-- Number of bits of Go `int`. -/
def intSize : Nat := 64

/-- The body of `strconv.Atoi` after the sign: `digits` has to be one or more
decimal digits, and the signed value has to fit a Go `int`; `s` is the whole
input, quoted in the error. -/
def atoiDigits (s : String) (neg : Bool) (digits : List Char) : Except GoError Int :=
  if digits = [] ∨ digits.all isDecimalDigit = false then
    Except.error (GoError.numError s)
  else
    let v : Int := if neg then -(digitsValue digits : Int) else (digitsValue digits : Int)
    if -(2 : Int) ^ (intSize - 1) ≤ v ∧ v < (2 : Int) ^ (intSize - 1) then Except.ok v
    else Except.error (GoError.numError s)

/-- The function `strconv.Atoi(s)`: it succeeds exactly on an optional sign
`+` or `-` followed by one or more decimal digits and nothing else, whose
value fits a Go `int`; everything else is a `*NumError`. -/
def strconvAtoi (s : String) : Except GoError Int :=
  match s.data with
  | '-' :: rest => atoiDigits s true rest
  | '+' :: rest => atoiDigits s false rest
  | other => atoiDigits s false other

/-! ## Data of the collaborators -/

/-- The part of `url.URL` the program reads. -/
structure URL where
  Path : String
  deriving DecidableEq, Repr

/-- The type `github.NotificationSubject`; `LatestCommentURL` is a `*string`. -/
structure NotificationSubject where
  LatestCommentURL : Option String
  deriving DecidableEq, Repr

/-- The type `github.Notification`; `Subject` is a pointer. -/
structure Notification where
  Subject : Option NotificationSubject
  deriving DecidableEq, Repr

/-- The type `github.NotificationListOptions` as `getNotifications` fills it. -/
structure NotificationListOptions where
  All : Bool
  Since : Time
  Before : Time
  deriving DecidableEq, Repr

/-- The part of `github.PullRequest` the program reads: `Merged` is a `*bool`,
`ClosedAt` a `*time.Time`. -/
structure PullRequest where
  Merged : Option Bool
  ClosedAt : Option Time
  deriving DecidableEq, Repr

/-- The part of `github.Repository` the program reads; `CloneURL` is a
`*string`. -/
structure Repository where
  CloneURL : Option String
  deriving DecidableEq, Repr

/-- The method `GetCloneURL`: the empty string when the field is nil. -/
def Repository.GetCloneURL (r : Repository) : String :=
  match r.CloneURL with
  | some u => u
  | none => ""

/-- The type `plumbing.Reference` of a hash reference: a name and a hash. -/
structure Reference where
  name : String
  hash : String
  deriving DecidableEq, Repr

/-- The function `plumbing.NewHashReference`. -/
def NewHashReference (name hash : String) : Reference := { name := name, hash := hash }

/-- A cloned `git.Repository` as the program uses it: what `r.Head()` answers
(a reference pointer and an error) and what `r.Storer.SetReference` answers. -/
structure GitRepository where
  Head : Option Reference × Option GoError
  SetReference : Reference → Option GoError

/-- The type `slack.Field`. -/
structure Field where
  Title : String
  Value : String
  deriving DecidableEq, Repr

/-- The type `slack.Action`; the field `Typ` is the Go field `Type`. -/
structure Action where
  Typ : String
  Text : String
  Url : String
  Style : String
  deriving DecidableEq, Repr

/-- The type `slack.Attachment`: the fields and the actions added so far. -/
structure Attachment where
  Fields : List Field
  Actions : List Action
  deriving DecidableEq, Repr

/-- The method `AddField`. -/
def Attachment.AddField (a : Attachment) (f : Field) : Attachment :=
  { a with Fields := a.Fields ++ [f] }

/-- The method `AddAction`. -/
def Attachment.AddAction (a : Attachment) (x : Action) : Attachment :=
  { a with Actions := a.Actions ++ [x] }

/-- The type `slack.Payload`. -/
structure Payload where
  Text : String
  Username : String
  Attachments : List Attachment
  deriving DecidableEq, Repr

/-- A call to a collaborator, with its arguments. -/
inductive Event where
  | listNotifications (opts : NotificationListOptions)
  | pullRequestsGet (owner repo : String) (number : Int)
  | createFork (owner repo : String)
  | gitClone (url : String)
  | repoHead
  | setReference (ref : Reference)
  | slackSend (webhookURL proxy : String) (payload : Payload)
  | printf (text : String)
  deriving DecidableEq, Repr

/-- The answers of everything outside the program: the command line, and for
each library call what it returns. A Go call returning `(pointer, error)` is a
pair of options, so that every combination the Go types allow is covered. -/
structure World where
  osArgs : List String
  urlParse : String → Option URL × Option GoError
  listNotifications : NotificationListOptions → List Notification × Option GoError
  pullRequestsGet : String → String → Int → Option PullRequest × Option GoError
  createFork : String → String → Option Repository × Option GoError
  gitClone : String → Option GitRepository × Option GoError
  slackSend : String → String → Payload → List GoError

/-- A run of a Go function: the collaborator calls it made, in order, and how
it ended. -/
structure Run (α : Type) where
  trace : List Event
  out : Outcome α
  deriving DecidableEq, Repr

/-! ## The program -/

/-- The function `getNotifications` (lines 29-43): one `ListNotifications` call
for the window; its error is returned traced, with a nil list. -/
def getNotifications (w : World) (since before : Time) :
    Run (List Notification × Option GoError) :=
  let opts : NotificationListOptions := { All := true, Since := since, Before := before }
  match w.listNotifications opts with
  | (_, some err) => ⟨[Event.listNotifications opts], Outcome.ret ([], some (errorsTrace err))⟩
  | (notifications, none) => ⟨[Event.listNotifications opts], Outcome.ret (notifications, none)⟩

/-- The function `autoSetup` (lines 130-164). The loop of lines 135-139 changes
nothing, so it is left at its first test or never: a nil fork without an error
makes the call hang. The error of `git.Clone` is overwritten by the one of
`r.Head()`; a nil repository makes `r.Head()` panic. -/
def autoSetup (w : World) (owner repo : String) : Run (Option GoError) :=
  let t1 := [Event.createFork owner repo]
  match w.createFork owner repo with
  | (_, some err) => ⟨t1, Outcome.ret (some (errorsTrace err))⟩
  | (none, none) => ⟨t1, Outcome.hang⟩
  | (some rf, none) =>
    let t2 := t1 ++ [Event.gitClone rf.GetCloneURL]
    match w.gitClone rf.GetCloneURL with
    | (none, _) => ⟨t2, Outcome.panic Panic.nilDereference⟩
    | (some r, _) =>
      let t3 := t2 ++ [Event.repoHead]
      match r.Head with
      | (_, some err) => ⟨t3, Outcome.ret (some (errorsTrace err))⟩
      | (none, none) => ⟨t3, Outcome.panic Panic.nilDereference⟩
      | (some headRef, none) =>
        let ref := NewHashReference "refs/heads/CodeLingo-Setup" headRef.hash
        let t4 := t3 ++ [Event.setReference ref]
        match r.SetReference ref with
        | some err => ⟨t4, Outcome.ret (some (errorsTrace err))⟩
        | none => ⟨t4, Outcome.ret none⟩

/-- The path segments the resolver step works on: the path without leading
and trailing slashes, cut at the slashes (line 48). -/
def pathSegments (parsed : URL) : List String :=
  stringsSplit (stringsTrim parsed.Path '/') '/'

/-- What lines 47-56 of `notifySlack` leave behind when they go through. -/
structure Resolved where
  parts : List String
  owner : String
  repo : String
  num : Int
  deriving DecidableEq, Repr

/-- Lines 47-56 of `notifySlack`: the resolver step. The error of `url.Parse`
is never looked at; `parsed.Path` needs a non-nil `parsed`, `parts[3]` and
`parts[4]` need a long enough slice. Only the `strconv.Atoi` error is
returned. -/
def resolve (w : World) (n : Notification) : Outcome (Except GoError Resolved) :=
  match n.Subject with
  | none => Outcome.panic Panic.nilDereference
  | some subject =>
    match subject.LatestCommentURL with
    | none => Outcome.panic Panic.nilDereference
    | some raw =>
      match (w.urlParse raw).1 with
      | none => Outcome.panic Panic.nilDereference
      | some parsed =>
        let parts := pathSegments parsed
        if parts.length ≤ 3 then Outcome.panic (Panic.indexOutOfRange 3 parts.length)
        else
          let parts := parts.set 3 "pull"
          let owner := parts.getD 1 ""
          let repo := parts.getD 2 ""
          if parts.length ≤ 4 then Outcome.panic (Panic.indexOutOfRange 4 parts.length)
          else
            match strconvAtoi (parts.getD 4 "") with
            | Except.error err => Outcome.ret (Except.error (errorsTrace err))
            | Except.ok num =>
              Outcome.ret (Except.ok { parts := parts, owner := owner, repo := repo, num := num })

/-- Lines 63-70 of `notifySlack`: the status of a fetched pull request.
`*pr.Merged` needs a non-nil pointer. -/
def prStatus (pr : PullRequest) : Outcome String :=
  match pr.Merged with
  | none => Outcome.panic Panic.nilDereference
  | some merged =>
    if merged then Outcome.ret "Merged"
    else if pr.ClosedAt = none then Outcome.ret "Open"
    else Outcome.ret "Closed"

/-- The link of both buttons (lines 78 and 80). -/
def prLink (parts : List String) : String :=
  "https://github.com/" ++ stringsJoin (parts.drop 1) "/"

/-- The attachment after lines 74-78: two fields and the first button. -/
def baseAttachment (r : Resolved) (status : String) : Attachment :=
  ((({ Fields := [], Actions := [] } : Attachment).AddField
      { Title := "Repository", Value := r.owner ++ "/" ++ r.repo }).AddField
      { Title := "Status", Value := status }).AddAction
      { Typ := "button", Text := "View Pull Request", Url := prLink r.parts, Style := "primary" }

/-- The attachment after line 80: the second button, added for a merged pull
request. -/
def mergedAttachment (r : Resolved) (status : String) : Attachment :=
  (baseAttachment r status).AddAction
    { Typ := "button", Text := "Open Setup PR", Url := prLink r.parts, Style := "primary" }

/-- The payload of lines 86-90 around an attachment. -/
def announcement (attachment : Attachment) : Payload :=
  { Text := "There was some activity on a Pull Request"
    Username := "robot"
    Attachments := [attachment] }

/-- Lines 86-95 of `notifySlack`: build the payload, send it, print when the
webhook reports errors (the variable printed is `err`, nil at that point), and
return nil. -/
def sendPayload (w : World) (webhookURL : String) (attachment : Attachment) : Run (Option GoError) :=
  let payload := announcement attachment
  let errArr := w.slackSend webhookURL "" payload
  if errArr.length > 0 then
    ⟨[Event.slackSend webhookURL "" payload, Event.printf "error: %!s(<nil>)\n"], Outcome.ret none⟩
  else
    ⟨[Event.slackSend webhookURL "" payload], Outcome.ret none⟩

/-- Lines 72-95 of `notifySlack`: the dispatch of a resolved and classified
pull request. `os.Args[3]` needs four command-line words. A merged pull request
runs `autoSetup` first and is announced only when that returns nil. -/
def dispatch (w : World) (r : Resolved) (status : String) : Run (Option GoError) :=
  match w.osArgs[3]? with
  | none => ⟨[], Outcome.panic (Panic.indexOutOfRange 3 w.osArgs.length)⟩
  | some webhookURL =>
    if status = "Merged" then
      let setup := autoSetup w r.owner r.repo
      match setup.out with
      | Outcome.ret none =>
        let sent := sendPayload w webhookURL (mergedAttachment r status)
        ⟨setup.trace ++ sent.trace, sent.out⟩
      | Outcome.ret (some err) => ⟨setup.trace, Outcome.ret (some (errorsTrace err))⟩
      | Outcome.panic p => ⟨setup.trace, Outcome.panic p⟩
      | Outcome.hang => ⟨setup.trace, Outcome.hang⟩
    else
      sendPayload w webhookURL (baseAttachment r status)

/-- The function `notifySlack` (lines 45-96): resolve, fetch, classify,
dispatch. -/
def notifySlack (w : World) (n : Notification) : Run (Option GoError) :=
  match resolve w n with
  | Outcome.panic p => ⟨[], Outcome.panic p⟩
  | Outcome.hang => ⟨[], Outcome.hang⟩
  | Outcome.ret (Except.error err) => ⟨[], Outcome.ret (some err)⟩
  | Outcome.ret (Except.ok r) =>
    let t1 := [Event.pullRequestsGet r.owner r.repo r.num]
    match w.pullRequestsGet r.owner r.repo r.num with
    | (_, some err) => ⟨t1, Outcome.ret (some (errorsTrace err))⟩
    | (none, none) => ⟨t1, Outcome.panic Panic.nilDereference⟩
    | (some pr, none) =>
      match prStatus pr with
      | Outcome.panic p => ⟨t1, Outcome.panic p⟩
      | Outcome.hang => ⟨t1, Outcome.hang⟩
      | Outcome.ret status =>
        let rest := dispatch w r status
        ⟨t1 ++ rest.trace, rest.out⟩

/-- The state of the polling loop of `forPRChange` after some ticks. -/
inductive LoopStatus where
  | running (lastPolled : Time)
  | returned (err : GoError)
  | panicked (p : Panic)
  | hung
  deriving DecidableEq, Repr

/-- One tick of the ticker: what `time.Now()` answers at line 113 and how the
collaborators answer during that tick. -/
structure Tick where
  now : Time
  world : World

/-- The inner loop of `forPRChange` (lines 119-124): `notifySlack` on each
notification in order; the first error is returned at once. The elements of
the slice are taken to be non-nil pointers, as the GitHub client builds
them. -/
def notifyAll (w : World) : List Notification → Run (Option GoError)
  | [] => ⟨[], Outcome.ret none⟩
  | n :: rest =>
    let one := notifySlack w n
    match one.out with
    | Outcome.ret none =>
      let more := notifyAll w rest
      ⟨one.trace ++ more.trace, more.out⟩
    | Outcome.ret (some err) => ⟨one.trace, Outcome.ret (some (errorsTrace err))⟩
    | Outcome.panic p => ⟨one.trace, Outcome.panic p⟩
    | Outcome.hang => ⟨one.trace, Outcome.hang⟩

/-- The polling loop of `forPRChange` (lines 112-126) over the ticks seen so
far, from the watermark `lastPolled`. The ticker never closes its channel, so
the loop is left only by a `return` (or a panic, or a call that never
returns); after the last tick given it is still running. -/
def pollLoop (lastPolled : Time) : List Tick → List Event × LoopStatus
  | [] => ([], LoopStatus.running lastPolled)
  | t :: later =>
    let now := t.now
    let fetched := getNotifications t.world (timeAdd lastPolled (timeSecond * -1)) now
    match fetched.out with
    | Outcome.panic p => (fetched.trace, LoopStatus.panicked p)
    | Outcome.hang => (fetched.trace, LoopStatus.hung)
    | Outcome.ret (_, some err) => (fetched.trace, LoopStatus.returned (errorsTrace err))
    | Outcome.ret (notifications, none) =>
      let handled := notifyAll t.world notifications
      match handled.out with
      | Outcome.panic p => (fetched.trace ++ handled.trace, LoopStatus.panicked p)
      | Outcome.hang => (fetched.trace ++ handled.trace, LoopStatus.hung)
      | Outcome.ret (some err) => (fetched.trace ++ handled.trace, LoopStatus.returned err)
      | Outcome.ret none =>
        let next := pollLoop now later
        (fetched.trace ++ handled.trace ++ next.1, next.2)

/-- The function `forPRChange` (lines 98-128): `start` is what `time.Now()`
answers at line 109, `ticks` are the ticks of the ticker seen so far.
`time.LoadLocation("UTC")` cannot fail. -/
def forPRChange (start : Time) (ticks : List Tick) : List Event × LoopStatus :=
  pollLoop start ticks

/-! ## Sample inputs -/

/-- A notification whose reference URL is `raw`. -/
def notificationFor (raw : String) : Notification :=
  { Subject := some { LatestCommentURL := some raw } }

/-- A git repository whose head resolves and whose reference store accepts
the new branch. -/
def goodGitRepository : GitRepository :=
  { Head := (some { name := "refs/heads/master", hash := "abc123" }, none)
    SetReference := fun _ => none }

/-- A world in which every collaborator succeeds: the raw URL is its own path,
the feed is empty, every pull request is the given one, forks and clones
succeed and the webhook accepts every payload. -/
def sampleWorld (pr : PullRequest) : World :=
  { osArgs := ["prbot", "user", "token", "https://hooks.example/T"]
    urlParse := fun raw => (some { Path := raw }, none)
    listNotifications := fun _ => ([], none)
    pullRequestsGet := fun _ _ _ => (some pr, none)
    createFork := fun _ _ => (some { CloneURL := some "https://git.example/fork.git" }, none)
    gitClone := fun _ => (some goodGitRepository, none)
    slackSend := fun _ _ _ => [] }

/-- A merged pull request, closed at instant 5. -/
def mergedPR : PullRequest := { Merged := some true, ClosedAt := some 5 }

/-- An open pull request. -/
def openPR : PullRequest := { Merged := some false, ClosedAt := none }

/-- A closed, unmerged pull request. -/
def closedPR : PullRequest := { Merged := some false, ClosedAt := some 5 }

/-- The sample world, except that the fork request is refused. -/
def forkRefusedWorld : World :=
  { sampleWorld mergedPR with
    createFork := fun _ _ => (none, some (GoError.external "fork refused")) }

/-- The sample world, except that `git.Clone` fails and hands back no
repository. -/
def cloneFailedWorld : World :=
  { sampleWorld mergedPR with
    gitClone := fun _ => (none, some (GoError.external "clone failed")) }

/-- The sample world, except that `git.Clone` fails and hands back the
repository it had initialised. -/
def cloneHalfWorld : World :=
  { sampleWorld mergedPR with
    gitClone := fun _ => (some goodGitRepository, some (GoError.external "clone failed")) }

/-- The sample world, except that `git.Clone` fails and hands back an empty
repository, whose head does not resolve. -/
def cloneEmptyWorld : World :=
  { sampleWorld mergedPR with
    gitClone := fun _ =>
      (some { Head := (none, some (GoError.external "reference not found"))
              SetReference := fun _ => none },
        some (GoError.external "clone failed")) }

/-- The sample world, except that `url.Parse` fails. -/
def parseFailedWorld : World :=
  { sampleWorld mergedPR with
    urlParse := fun _ => (none, some (GoError.external "parse failed")) }

/-- The sample world, except that the pull-request fetch fails. -/
def fetchFailedWorld : World :=
  { sampleWorld mergedPR with
    pullRequestsGet := fun _ _ _ => (none, some (GoError.external "not found")) }

/-- The reference URL of the end-to-end scenario, as the GitHub API gives it:
the path starts with the segment `repos`. -/
def sampleURL : String := "/repos/octo/repo/issues/42/comments/7"

/-- What the resolver step makes of `sampleURL`. -/
def sampleResolved : Resolved :=
  { parts := ["repos", "octo", "repo", "pull", "42", "comments", "7"]
    owner := "octo", repo := "repo", num := 42 }

/-- The payload of a merged pull request: two fields, two buttons. -/
def mergedPayload (r : Resolved) : Payload :=
  { Text := "There was some activity on a Pull Request"
    Username := "robot"
    Attachments :=
      [{ Fields :=
           [{ Title := "Repository", Value := r.owner ++ "/" ++ r.repo },
            { Title := "Status", Value := "Merged" }]
         Actions :=
           [{ Typ := "button", Text := "View Pull Request", Url := prLink r.parts, Style := "primary" },
            { Typ := "button", Text := "Open Setup PR", Url := prLink r.parts, Style := "primary" }] }] }

/-- The payload of a pull request that is not merged: two fields, one
button. -/
def plainPayload (r : Resolved) (status : String) : Payload :=
  { Text := "There was some activity on a Pull Request"
    Username := "robot"
    Attachments :=
      [{ Fields :=
           [{ Title := "Repository", Value := r.owner ++ "/" ++ r.repo },
            { Title := "Status", Value := status }]
         Actions :=
           [{ Typ := "button", Text := "View Pull Request", Url := prLink r.parts, Style := "primary" }] }] }

/-- An optional sign `+` or `-` followed by one or more decimal digits. -/
def isSignedDecimal (s : String) : Bool :=
  match s.data with
  | '-' :: rest => !rest.isEmpty && rest.all isDecimalDigit
  | '+' :: rest => !rest.isEmpty && rest.all isDecimalDigit
  | other => !other.isEmpty && other.all isDecimalDigit

/-- The sample world with a feed of two records: the first has a number
segment that is not a number, the second is the sample URL. -/
def badFeedWorld : World :=
  { sampleWorld openPR with
    listNotifications := fun _ =>
      ([notificationFor "/repos/octo/repo/pull/x", notificationFor sampleURL], none) }

/-- The sample world with a feed of one record, the sample URL. -/
def goodFeedWorld : World :=
  { sampleWorld openPR with
    listNotifications := fun _ => ([notificationFor sampleURL], none) }

/-- The windows the polling loop asks for when no tick is cut short: from one
second before the watermark to the tick, the tick becoming the watermark. -/
def tickWindows (lastPolled : Time) : List Tick → List (Time × Time)
  | [] => []
  | t :: later => (timeAdd lastPolled (timeSecond * -1), t.now) :: tickWindows t.now later

/-! ## Observations on traces -/

/-- The payloads handed to the webhook, in order. -/
def sentPayloads : List Event → List Payload
  | [] => []
  | Event.slackSend _ _ payload :: rest => payload :: sentPayloads rest
  | _ :: rest => sentPayloads rest

/-- The `(owner, repo)` arguments of the fork requests, in order. Each call of
`autoSetup` starts with exactly one. -/
def forkCalls : List Event → List (String × String)
  | [] => []
  | Event.createFork owner repo :: rest => (owner, repo) :: forkCalls rest
  | _ :: rest => forkCalls rest

/-- The windows `(since, before)` asked of the feed, in order. -/
def windows : List Event → List (Time × Time)
  | [] => []
  | Event.listNotifications opts :: rest => (opts.Since, opts.Before) :: windows rest
  | _ :: rest => windows rest

/-- The values of the fields titled `Status` in the attachments of a payload. -/
def statusValues (p : Payload) : List String :=
  (p.Attachments.flatMap (fun a => a.Fields.filter (fun f => f.Title = "Status"))).map (fun f => f.Value)

/-! ## The rule of the specification for the state of a pull request -/

/-- The states of the specification. -/
inductive PullRequestState where
  | Open
  | Closed
  | Merged
  deriving DecidableEq, Repr

/-- The text of a state. -/
def PullRequestState.label : PullRequestState → String
  | PullRequestState.Open => "Open"
  | PullRequestState.Closed => "Closed"
  | PullRequestState.Merged => "Merged"

/-- The determination rule in the words of the specification: merged flag
true gives Merged; else closed timestamp unset gives Open; else Closed. -/
def referenceState (merged : Bool) (closedAt : Option Time) : PullRequestState :=
  match merged, closedAt with
  | true, _ => PullRequestState.Merged
  | false, none => PullRequestState.Open
  | false, some _ => PullRequestState.Closed

/-! ## Lemmas on traces -/

theorem sentPayloads_append (a b : List Event) :
    sentPayloads (a ++ b) = sentPayloads a ++ sentPayloads b := by
  induction a with
  | nil => rfl
  | cons e a ih => cases e <;> simp [sentPayloads, ih]

theorem forkCalls_append (a b : List Event) :
    forkCalls (a ++ b) = forkCalls a ++ forkCalls b := by
  induction a with
  | nil => rfl
  | cons e a ih => cases e <;> simp [forkCalls, ih]

theorem windows_append (a b : List Event) :
    windows (a ++ b) = windows a ++ windows b := by
  induction a with
  | nil => rfl
  | cons e a ih => cases e <;> simp [windows, ih]

theorem autoSetup_observations (w : World) (owner repo : String) :
    sentPayloads (autoSetup w owner repo).trace = []
      ∧ forkCalls (autoSetup w owner repo).trace = [(owner, repo)]
      ∧ windows (autoSetup w owner repo).trace = [] := by
  unfold autoSetup
  rcases hf : w.createFork owner repo with ⟨_ | rf, _ | e⟩ <;>
    simp [sentPayloads, forkCalls, windows]
  rcases hc : w.gitClone rf.GetCloneURL with ⟨_ | r, ce⟩ <;>
    simp [sentPayloads, forkCalls, windows]
  rcases hh : r.Head with ⟨_ | headRef, _ | e⟩ <;>
    simp [sentPayloads, forkCalls, windows]
  cases hs : r.SetReference (NewHashReference "refs/heads/CodeLingo-Setup" headRef.hash) <;>
    simp [sentPayloads, forkCalls, windows]

theorem sendPayload_observations (w : World) (url : String) (a : Attachment) :
    sentPayloads (sendPayload w url a).trace = [announcement a]
      ∧ forkCalls (sendPayload w url a).trace = []
      ∧ windows (sendPayload w url a).trace = []
      ∧ (sendPayload w url a).out = Outcome.ret none := by
  unfold sendPayload
  by_cases h : (w.slackSend url "" (announcement a)).length > 0 <;>
    simp [h, sentPayloads, forkCalls, windows]

theorem notifySlack_classified (w : World) (n : Notification) (r : Resolved) (pr : PullRequest)
    (status : String) (hres : resolve w n = Outcome.ret (Except.ok r))
    (hget : w.pullRequestsGet r.owner r.repo r.num = (some pr, none))
    (hst : prStatus pr = Outcome.ret status) :
    notifySlack w n = ⟨Event.pullRequestsGet r.owner r.repo r.num :: (dispatch w r status).trace,
      (dispatch w r status).out⟩ := by
  simp [notifySlack, hres, hget, hst]

theorem dispatch_merged (w : World) (r : Resolved) (url : String)
    (hargs : w.osArgs[3]? = some url) :
    dispatch w r "Merged" =
      match (autoSetup w r.owner r.repo).out with
      | Outcome.ret none =>
        ⟨(autoSetup w r.owner r.repo).trace ++ (sendPayload w url (mergedAttachment r "Merged")).trace,
          Outcome.ret none⟩
      | Outcome.ret (some err) => ⟨(autoSetup w r.owner r.repo).trace, Outcome.ret (some err)⟩
      | Outcome.panic p => ⟨(autoSetup w r.owner r.repo).trace, Outcome.panic p⟩
      | Outcome.hang => ⟨(autoSetup w r.owner r.repo).trace, Outcome.hang⟩ := by
  unfold dispatch
  rw [hargs]
  simp only [if_true]
  rcases h : (autoSetup w r.owner r.repo).out with (_ | e) | p | _ <;>
    simp [errorsTrace, (sendPayload_observations w url (mergedAttachment r "Merged")).2.2.2]

theorem dispatch_other (w : World) (r : Resolved) (url status : String)
    (hargs : w.osArgs[3]? = some url) (hst : status ≠ "Merged") :
    dispatch w r status = sendPayload w url (baseAttachment r status) := by
  unfold dispatch
  rw [hargs]
  simp [hst]

theorem prStatus_values (pr : PullRequest) (status : String)
    (hst : prStatus pr = Outcome.ret status) :
    status = "Merged" ∨ status = "Open" ∨ status = "Closed" := by
  unfold prStatus at hst
  rcases hm : pr.Merged with _ | m
  · simp [hm] at hst
  · rw [hm] at hst
    by_cases h1 : m = true
    · simp [h1] at hst; exact Or.inl hst.symm
    · by_cases h2 : pr.ClosedAt = none
      · simp [h1, h2] at hst; exact Or.inr (Or.inl hst.symm)
      · simp [h1, h2] at hst; exact Or.inr (Or.inr hst.symm)

theorem dispatch_statusValues (w : World) (r : Resolved) (status : String) :
    ∀ p ∈ sentPayloads (dispatch w r status).trace, statusValues p = [status] := by
  intro p hp
  unfold dispatch at hp
  rcases hargs : w.osArgs[3]? with _ | url
  · simp [hargs, sentPayloads] at hp
  · rw [hargs] at hp
    by_cases hm : status = "Merged"
    · simp only [hm, if_true] at hp
      rcases h : (autoSetup w r.owner r.repo).out with (_ | e) | q | _ <;>
        simp [h, sentPayloads_append, (autoSetup_observations w r.owner r.repo).1,
          (sendPayload_observations w url (mergedAttachment r "Merged")).1] at hp
      subst hp
      simp [hm, statusValues, announcement, mergedAttachment, baseAttachment,
        Attachment.AddField, Attachment.AddAction]
    · simp [hm, (sendPayload_observations w url (baseAttachment r status)).1] at hp
      subst hp
      simp [statusValues, announcement, baseAttachment, Attachment.AddField,
        Attachment.AddAction]

/-! ## Status rule -/

/-- C3. For a fetched pull request whose merged flag is `merged`, the status
computed by `notifySlack` is the one of the reference rule (Merged when the
flag is true, whatever `ClosedAt` is; otherwise Open when `ClosedAt` is unset;
otherwise Closed), and every payload `notifySlack` sends carries exactly that
status. -/
theorem notifySlack_status_follows_rule (w : World) (n : Notification) (r : Resolved)
    (pr : PullRequest) (merged : Bool)
    (hres : resolve w n = Outcome.ret (Except.ok r))
    (hget : w.pullRequestsGet r.owner r.repo r.num = (some pr, none))
    (hm : pr.Merged = some merged) :
    prStatus pr = Outcome.ret (referenceState merged pr.ClosedAt).label
      ∧ (merged = true → prStatus pr = Outcome.ret "Merged")
      ∧ (merged = false → pr.ClosedAt = none → prStatus pr = Outcome.ret "Open")
      ∧ (merged = false → pr.ClosedAt ≠ none → prStatus pr = Outcome.ret "Closed")
      ∧ ∀ p ∈ sentPayloads (notifySlack w n).trace,
          statusValues p = [(referenceState merged pr.ClosedAt).label] := by
  have hrule : prStatus pr = Outcome.ret (referenceState merged pr.ClosedAt).label := by
    unfold prStatus
    rw [hm]
    cases merged <;> cases hc : pr.ClosedAt <;>
      simp [referenceState, PullRequestState.label]
  refine ⟨hrule, ?_, ?_, ?_, ?_⟩
  · intro h; subst h; rw [hrule]; rfl
  · intro h hc; subst h; rw [hrule, hc]; rfl
  · intro h hc; subst h; rw [hrule]
    cases hc2 : pr.ClosedAt with
    | none => exact absurd hc2 hc
    | some t => rfl
  · intro p hp
    rw [notifySlack_classified w n r pr _ hres hget hrule] at hp
    simp only [sentPayloads] at hp
    exact dispatch_statusValues w r _ p hp

/-- Witness of C3: the merged pull request of the sample world. -/
theorem notifySlack_status_follows_rule_witness :
    prStatus mergedPR = Outcome.ret "Merged"
      ∧ ∀ p ∈ sentPayloads (notifySlack (sampleWorld mergedPR)
            (notificationFor sampleURL)).trace,
          statusValues p = ["Merged"] :=
  have h := notifySlack_status_follows_rule (sampleWorld mergedPR)
    (notificationFor sampleURL) sampleResolved
    mergedPR true (by decide) (by decide) (by decide)
  ⟨h.1, h.2.2.2.2⟩

/-! ## Dispatch -/

/-- C6. For a resolved and classified pull request (and a webhook URL on the
command line): when the status is Merged, `autoSetup` is invoked exactly once,
with the resolved owner and repo, right after the fetch; every payload sent is
the one with Status Merged, Repository owner/repo and the two buttons "View
Pull Request" then "Open Setup PR", and it is sent when `autoSetup` returns
nil. When the status is Open or Closed, `autoSetup` is not invoked and exactly
one payload, with the single button, is sent. -/
theorem notifySlack_setup_and_links (w : World) (n : Notification) (r : Resolved)
    (pr : PullRequest) (status url : String)
    (hres : resolve w n = Outcome.ret (Except.ok r))
    (hget : w.pullRequestsGet r.owner r.repo r.num = (some pr, none))
    (hst : prStatus pr = Outcome.ret status)
    (hargs : w.osArgs[3]? = some url) :
    (status = "Merged" →
        forkCalls (notifySlack w n).trace = [(r.owner, r.repo)]
        ∧ (∃ sends, (notifySlack w n).trace =
            Event.pullRequestsGet r.owner r.repo r.num ::
              ((autoSetup w r.owner r.repo).trace ++ sends) ∧ forkCalls sends = [])
        ∧ (∀ p ∈ sentPayloads (notifySlack w n).trace, p = mergedPayload r)
        ∧ ((autoSetup w r.owner r.repo).out = Outcome.ret none →
            sentPayloads (notifySlack w n).trace = [mergedPayload r])
        ∧ statusValues (mergedPayload r) = ["Merged"]
        ∧ (mergedPayload r).Attachments.map (fun a => a.Actions.map (fun x => x.Text))
            = [["View Pull Request", "Open Setup PR"]])
      ∧ (status = "Open" ∨ status = "Closed" →
        forkCalls (notifySlack w n).trace = []
        ∧ sentPayloads (notifySlack w n).trace = [plainPayload r status]
        ∧ (plainPayload r status).Attachments.map (fun a => a.Actions.length) = [1]) := by
  rw [notifySlack_classified w n r pr status hres hget hst]
  have hs := sendPayload_observations w url (mergedAttachment r "Merged")
  have ha := autoSetup_observations w r.owner r.repo
  have hmp : announcement (mergedAttachment r "Merged") = mergedPayload r := rfl
  constructor
  · intro hm
    subst hm
    rw [dispatch_merged w r url hargs]
    rcases h : (autoSetup w r.owner r.repo).out with (_ | e) | q | _
    · simp only [forkCalls, sentPayloads, forkCalls_append, sentPayloads_append, ha.1, ha.2.1,
        hs.1, hs.2.1, hmp]
      refine ⟨by simp, ⟨_, rfl, hs.2.1⟩, by simp, by simp, rfl, rfl⟩
    · simp only [forkCalls, sentPayloads, ha.1, ha.2.1]
      exact ⟨trivial, ⟨[], by simp, rfl⟩, by simp, by simp, rfl, rfl⟩
    · simp only [forkCalls, sentPayloads, ha.1, ha.2.1]
      exact ⟨trivial, ⟨[], by simp, rfl⟩, by simp, by simp, rfl, rfl⟩
    · simp only [forkCalls, sentPayloads, ha.1, ha.2.1]
      exact ⟨trivial, ⟨[], by simp, rfl⟩, by simp, by simp, rfl, rfl⟩
  · intro ho
    have hne : status ≠ "Merged" := by
      rcases ho with h | h <;> subst h <;> decide
    rw [dispatch_other w r url status hargs hne]
    have hb := sendPayload_observations w url (baseAttachment r status)
    have hpp : announcement (baseAttachment r status) = plainPayload r status := rfl
    simp only [forkCalls, sentPayloads, hb.1, hb.2.1, hpp]
    exact ⟨trivial, trivial, rfl⟩

/-- Witness of C6: the merged and the open pull request of the sample world. -/
theorem notifySlack_setup_and_links_witness :
    (forkCalls (notifySlack (sampleWorld mergedPR) (notificationFor sampleURL)).trace
        = [("octo", "repo")]
      ∧ sentPayloads (notifySlack (sampleWorld mergedPR) (notificationFor sampleURL)).trace
        = [mergedPayload sampleResolved])
    ∧ (forkCalls (notifySlack (sampleWorld openPR) (notificationFor sampleURL)).trace = []
      ∧ sentPayloads (notifySlack (sampleWorld openPR) (notificationFor sampleURL)).trace
        = [plainPayload sampleResolved "Open"]) :=
  have hm := (notifySlack_setup_and_links (sampleWorld mergedPR) (notificationFor sampleURL)
    sampleResolved mergedPR "Merged" "https://hooks.example/T"
    (by decide) (by decide) (by decide) (by decide)).1 rfl
  have ho := (notifySlack_setup_and_links (sampleWorld openPR) (notificationFor sampleURL)
    sampleResolved openPR "Open" "https://hooks.example/T"
    (by decide) (by decide) (by decide) (by decide)).2 (Or.inl rfl)
  ⟨⟨hm.1, hm.2.2.2.1 (by decide)⟩, ⟨ho.1, ho.2.1⟩⟩

/-- C7, the claim fails: in the sample world with a refused fork request, the
merged pull request of the end-to-end scenario is fetched, `autoSetup` returns
the error, and `notifySlack` returns it without sending any payload. -/
theorem setup_error_blocks_announcement :
    notifySlack forkRefusedWorld (notificationFor sampleURL)
        = ⟨[Event.pullRequestsGet "octo" "repo" 42, Event.createFork "octo" "repo"],
            Outcome.ret (some (GoError.external "fork refused"))⟩
      ∧ sentPayloads (notifySlack forkRefusedWorld (notificationFor sampleURL)).trace = [] := by
  decide

/-- C7 as amended. For a Merged pull request (resolved, fetched, webhook URL on
the command line): when `autoSetup` returns an error, `notifySlack` returns
that error right after the calls of `autoSetup` and sends no payload; a payload
is sent exactly when `autoSetup` returns nil. -/
theorem notifySlack_setup_error_no_send (w : World) (n : Notification) (r : Resolved)
    (pr : PullRequest) (url : String)
    (hres : resolve w n = Outcome.ret (Except.ok r))
    (hget : w.pullRequestsGet r.owner r.repo r.num = (some pr, none))
    (hst : prStatus pr = Outcome.ret "Merged")
    (hargs : w.osArgs[3]? = some url) :
    (∀ e, (autoSetup w r.owner r.repo).out = Outcome.ret (some e) →
        notifySlack w n = ⟨Event.pullRequestsGet r.owner r.repo r.num ::
            (autoSetup w r.owner r.repo).trace, Outcome.ret (some (errorsTrace e))⟩
        ∧ sentPayloads (notifySlack w n).trace = [])
      ∧ (sentPayloads (notifySlack w n).trace ≠ [] ↔
          (autoSetup w r.owner r.repo).out = Outcome.ret none) := by
  rw [notifySlack_classified w n r pr "Merged" hres hget hst, dispatch_merged w r url hargs]
  have hs := sendPayload_observations w url (mergedAttachment r "Merged")
  have ha := autoSetup_observations w r.owner r.repo
  rcases h : (autoSetup w r.owner r.repo).out with (_ | e) | q | _ <;>
    simp [sentPayloads, sentPayloads_append, ha.1, hs.1, errorsTrace]

/-- Witness of C7 as amended: the refused fork request. -/
theorem notifySlack_setup_error_no_send_witness :
    notifySlack forkRefusedWorld (notificationFor sampleURL)
        = ⟨Event.pullRequestsGet "octo" "repo" 42 :: (autoSetup forkRefusedWorld "octo" "repo").trace,
            Outcome.ret (some (errorsTrace (GoError.external "fork refused")))⟩
      ∧ sentPayloads (notifySlack forkRefusedWorld (notificationFor sampleURL)).trace = [] :=
  (notifySlack_setup_error_no_send forkRefusedWorld (notificationFor sampleURL) sampleResolved
    mergedPR "https://hooks.example/T" (by decide) (by decide) (by decide) (by decide)).1
    (GoError.external "fork refused") (by decide)

/-! ## Fetch failure -/

/-- C8. When the resolver step went through and the pull-request fetch returns
an error, `notifySlack` returns that error after the fetch alone and sends
nothing. In every run, a payload is sent only after a successful resolution, a
successful fetch and a classification, and it carries the status computed. -/
theorem notifySlack_fetch_error_no_send (w : World) (n : Notification) :
    (∀ r x e, resolve w n = Outcome.ret (Except.ok r) →
        w.pullRequestsGet r.owner r.repo r.num = (x, some e) →
        notifySlack w n = ⟨[Event.pullRequestsGet r.owner r.repo r.num],
          Outcome.ret (some (errorsTrace e))⟩
        ∧ sentPayloads (notifySlack w n).trace = [])
      ∧ (∀ p ∈ sentPayloads (notifySlack w n).trace,
          ∃ r pr status, resolve w n = Outcome.ret (Except.ok r)
            ∧ w.pullRequestsGet r.owner r.repo r.num = (some pr, none)
            ∧ prStatus pr = Outcome.ret status
            ∧ statusValues p = [status]) := by
  constructor
  · intro r x e hres hget
    simp [notifySlack, hres, hget, sentPayloads]
  · intro p hp
    unfold notifySlack at hp
    rcases hres : resolve w n with (e | r) | q | _
    · simp [hres, sentPayloads] at hp
    · rw [hres] at hp
      simp only at hp
      rcases hget : w.pullRequestsGet r.owner r.repo r.num with ⟨_ | pr, _ | e⟩
      · simp [hget, sentPayloads] at hp
      · simp [hget, sentPayloads] at hp
      · rw [hget] at hp
        simp only at hp
        rcases hst : prStatus pr with status | q | _
        · rw [hst] at hp
          simp only [sentPayloads] at hp
          exact ⟨r, pr, status, rfl, hget, hst, dispatch_statusValues w r status p hp⟩
        · simp [hst, sentPayloads] at hp
        · simp [hst, sentPayloads] at hp
      · simp [hget, sentPayloads] at hp
    · simp [hres, sentPayloads] at hp
    · simp [hres, sentPayloads] at hp

/-- Witness of C8: the failing fetch of the sample world. -/
theorem notifySlack_fetch_error_no_send_witness :
    notifySlack fetchFailedWorld (notificationFor sampleURL)
        = ⟨[Event.pullRequestsGet "octo" "repo" 42],
            Outcome.ret (some (errorsTrace (GoError.external "not found")))⟩
      ∧ sentPayloads (notifySlack fetchFailedWorld (notificationFor sampleURL)).trace = [] :=
  (notifySlack_fetch_error_no_send fetchFailedWorld (notificationFor sampleURL)).1
    sampleResolved none (GoError.external "not found") (by decide) (by decide)

/-! ## Malformed reference URLs -/

/-- C2, the code at the failing inputs: a notification without subject or
without reference URL, a URL that `url.Parse` rejects, a path of three segments
and a path of four segments each make `notifySlack` panic (nil dereference or
index out of range) before any collaborator is called; no error is returned. -/
theorem notifySlack_panics_on_malformed_reference :
    notifySlack (sampleWorld mergedPR) { Subject := none }
        = ⟨[], Outcome.panic Panic.nilDereference⟩
      ∧ notifySlack (sampleWorld mergedPR) { Subject := some { LatestCommentURL := none } }
        = ⟨[], Outcome.panic Panic.nilDereference⟩
      ∧ notifySlack parseFailedWorld (notificationFor sampleURL)
        = ⟨[], Outcome.panic Panic.nilDereference⟩
      ∧ notifySlack (sampleWorld mergedPR) (notificationFor "/a/b/c")
        = ⟨[], Outcome.panic (Panic.indexOutOfRange 3 3)⟩
      ∧ notifySlack (sampleWorld mergedPR) (notificationFor "/repos/octo/repo/pull")
        = ⟨[], Outcome.panic (Panic.indexOutOfRange 4 4)⟩ := by
  decide

/-! ## The setup workflow -/

/-- C10, the code at the failing inputs: when `git.Clone` fails and hands back
no repository, `autoSetup` panics in `r.Head()`; when it fails and hands back
an empty repository, `autoSetup` still calls `Head` and returns the error of
`Head`; when it fails and hands back a repository whose head resolves,
`autoSetup` goes on to `Head` and `SetReference` and returns nil. In no case
is the clone error looked at. -/
theorem autoSetup_ignores_clone_error :
    autoSetup cloneFailedWorld "octo" "repo"
        = ⟨[Event.createFork "octo" "repo", Event.gitClone "https://git.example/fork.git"],
            Outcome.panic Panic.nilDereference⟩
      ∧ autoSetup cloneEmptyWorld "octo" "repo"
        = ⟨[Event.createFork "octo" "repo", Event.gitClone "https://git.example/fork.git",
              Event.repoHead],
            Outcome.ret (some (GoError.external "reference not found"))⟩
      ∧ autoSetup cloneHalfWorld "octo" "repo"
        = ⟨[Event.createFork "octo" "repo", Event.gitClone "https://git.example/fork.git",
              Event.repoHead,
              Event.setReference { name := "refs/heads/CodeLingo-Setup", hash := "abc123" }],
            Outcome.ret none⟩ := by
  decide

/-- The three steps of `autoSetup` whose error is checked: a failing fork
request, head resolution or reference creation makes `autoSetup` return that
error, and nothing is called after the failing step. -/
theorem autoSetup_checked_steps (w : World) (owner repo : String) (e : GoError) :
    (∀ x, w.createFork owner repo = (x, some e) →
        autoSetup w owner repo = ⟨[Event.createFork owner repo], Outcome.ret (some e)⟩)
      ∧ (∀ rf r x y, w.createFork owner repo = (some rf, none) →
          w.gitClone rf.GetCloneURL = (some r, y) → r.Head = (x, some e) →
          autoSetup w owner repo = ⟨[Event.createFork owner repo,
            Event.gitClone rf.GetCloneURL, Event.repoHead], Outcome.ret (some e)⟩)
      ∧ (∀ rf r y headRef, w.createFork owner repo = (some rf, none) →
          w.gitClone rf.GetCloneURL = (some r, y) → r.Head = (some headRef, none) →
          r.SetReference (NewHashReference "refs/heads/CodeLingo-Setup" headRef.hash) = some e →
          autoSetup w owner repo = ⟨[Event.createFork owner repo,
            Event.gitClone rf.GetCloneURL, Event.repoHead,
            Event.setReference (NewHashReference "refs/heads/CodeLingo-Setup" headRef.hash)],
            Outcome.ret (some e)⟩) := by
  refine ⟨?_, ?_, ?_⟩
  · intro x hf
    simp [autoSetup, hf, errorsTrace]
  · intro rf r x y hf hc hh
    simp [autoSetup, hf, hc, hh, errorsTrace]
  · intro rf r y headRef hf hc hh hs
    simp [autoSetup, hf, hc, hh, hs, errorsTrace]

/-! ## What the resolver step accepts -/

theorem atoiDigits_ok (s : String) (neg : Bool) (digits : List Char) (v : Int)
    (h : atoiDigits s neg digits = Except.ok v) :
    (!digits.isEmpty && digits.all isDecimalDigit) = true
      ∧ -(2 : Int) ^ 63 ≤ v ∧ v < (2 : Int) ^ 63
      ∧ v = (if neg then -(digitsValue digits : Int) else (digitsValue digits : Int)) := by
  by_cases hsyn : digits = [] ∨ digits.all isDecimalDigit = false
  · rw [atoiDigits, if_pos hsyn] at h
    cases h
  · rw [atoiDigits, if_neg hsyn] at h
    dsimp only at h
    by_cases hr : -(2 : Int) ^ (intSize - 1)
        ≤ (if neg then -(digitsValue digits : Int) else (digitsValue digits : Int))
        ∧ (if neg then -(digitsValue digits : Int) else (digitsValue digits : Int))
          < (2 : Int) ^ (intSize - 1)
    · rw [if_pos hr] at h
      injection h with h
      subst h
      simp only [not_or, intSize] at hsyn hr
      refine ⟨?_, hr.1, hr.2, rfl⟩
      have h1 : digits.isEmpty = false := by
        cases digits with
        | nil => exact absurd rfl hsyn.1
        | cons c cs => rfl
      have h2 : digits.all isDecimalDigit = true := by
        cases hb : digits.all isDecimalDigit with
        | true => rfl
        | false => exact absurd hb hsyn.2
      rw [h1, h2]; rfl
    · rw [if_neg hr] at h
      cases h

theorem atoiDigits_not_decimal (s : String) (neg : Bool) (digits : List Char)
    (h : (!digits.isEmpty && digits.all isDecimalDigit) = false) :
    atoiDigits s neg digits = Except.error (GoError.numError s) := by
  unfold atoiDigits
  rw [if_pos]
  cases digits with
  | nil => exact Or.inl rfl
  | cons c cs =>
    right
    simp only [List.isEmpty_cons, Bool.not_false, Bool.true_and] at h
    exact h

theorem strconvAtoi_ok (s : String) (v : Int) (h : strconvAtoi s = Except.ok v) :
    isSignedDecimal s = true ∧ -(2 : Int) ^ 63 ≤ v ∧ v < (2 : Int) ^ 63 := by
  unfold strconvAtoi at h
  unfold isSignedDecimal
  split at h <;>
    exact ⟨(atoiDigits_ok _ _ _ _ h).1, (atoiDigits_ok _ _ _ _ h).2.1, (atoiDigits_ok _ _ _ _ h).2.2.1⟩

theorem strconvAtoi_not_decimal (s : String) (h : isSignedDecimal s = false) :
    strconvAtoi s = Except.error (GoError.numError s) := by
  unfold isSignedDecimal at h
  unfold strconvAtoi
  split at h <;> exact atoiDigits_not_decimal _ _ _ h

theorem getD_set_ne (l : List String) (i j : Nat) (x d : String) (h : i ≠ j) :
    (l.set i x).getD j d = l.getD j d := by
  simp [List.getD_eq_getElem?_getD, List.getElem?_set, h]

theorem resolve_parsed (w : World) (raw : String) (parsed : URL)
    (hparse : (w.urlParse raw).1 = some parsed) :
    resolve w (notificationFor raw) =
      if (pathSegments parsed).length ≤ 3 then
        Outcome.panic (Panic.indexOutOfRange 3 (pathSegments parsed).length)
      else if (pathSegments parsed).length ≤ 4 then
        Outcome.panic (Panic.indexOutOfRange 4 (pathSegments parsed).length)
      else
        match strconvAtoi ((pathSegments parsed).getD 4 "") with
        | Except.error err => Outcome.ret (Except.error err)
        | Except.ok num =>
          Outcome.ret (Except.ok
            { parts := (pathSegments parsed).set 3 "pull"
              owner := (pathSegments parsed).getD 1 ""
              repo := (pathSegments parsed).getD 2 ""
              num := num }) := by
  simp only [resolve, notificationFor, hparse, List.length_set, errorsTrace]
  by_cases h3 : (pathSegments parsed).length ≤ 3
  · simp only [h3, if_true]
  · by_cases h4 : (pathSegments parsed).length ≤ 4
    · simp only [h3, h4, if_true, if_false]
    · simp only [h3, h4, if_false]
      rw [getD_set_ne _ 3 1 _ _ (by decide), getD_set_ne _ 3 2 _ _ (by decide),
        getD_set_ne _ 3 4 _ _ (by decide)]

theorem resolve_ok_url (w : World) (n : Notification) (r : Resolved)
    (h : resolve w n = Outcome.ret (Except.ok r)) :
    ∃ raw parsed, n = notificationFor raw ∧ (w.urlParse raw).1 = some parsed := by
  rcases n with ⟨_ | ⟨_ | raw⟩⟩
  · simp [resolve] at h
  · simp [resolve] at h
  · rcases hp : (w.urlParse raw).1 with _ | parsed
    · simp [resolve, hp] at h
    · exact ⟨raw, parsed, rfl, hp⟩

theorem notifySlack_first_call (w : World) (n : Notification) (r : Resolved)
    (h : resolve w n = Outcome.ret (Except.ok r)) :
    (notifySlack w n).trace.head? = some (Event.pullRequestsGet r.owner r.repo r.num) := by
  unfold notifySlack
  rw [h]
  simp only
  rcases w.pullRequestsGet r.owner r.repo r.num with ⟨_ | pr, _ | e⟩ <;> try rfl
  simp only
  cases prStatus pr <;> rfl

theorem notifySlack_resolve_error (w : World) (n : Notification) (e : GoError)
    (h : resolve w n = Outcome.ret (Except.error e)) :
    notifySlack w n = ⟨[], Outcome.ret (some e)⟩ := by
  unfold notifySlack
  rw [h]

/-- A path of fewer than five segments makes `notifySlack` panic before any
call, whatever the collaborators answer. -/
theorem notifySlack_short_path_panics (w : World) (raw : String) (parsed : URL)
    (hparse : (w.urlParse raw).1 = some parsed) (hlen : (pathSegments parsed).length < 5) :
    ∃ p, notifySlack w (notificationFor raw) = ⟨[], Outcome.panic p⟩ := by
  have hres := resolve_parsed w raw parsed hparse
  by_cases h3 : (pathSegments parsed).length ≤ 3
  · rw [if_pos h3] at hres
    refine ⟨Panic.indexOutOfRange 3 (pathSegments parsed).length, ?_⟩
    simp [notifySlack, hres]
  · have h4 : (pathSegments parsed).length ≤ 4 := by omega
    rw [if_neg h3, if_pos h4] at hres
    refine ⟨Panic.indexOutOfRange 4 (pathSegments parsed).length, ?_⟩
    simp [notifySlack, hres]

/-- C9, the claim fails: the resolver step accepts an empty owner with a
negative number, an empty repo with the number zero, and goes on to fetch the
pull request with these values. -/
theorem resolver_accepts_empty_names_and_nonpositive_numbers :
    resolve (sampleWorld openPR) (notificationFor "/repos//repo/issues/-7")
        = Outcome.ret (Except.ok
            { parts := ["repos", "", "repo", "pull", "-7"], owner := "", repo := "repo", num := -7 })
      ∧ (notifySlack (sampleWorld openPR) (notificationFor "/repos//repo/issues/-7")).trace.head?
        = some (Event.pullRequestsGet "" "repo" (-7))
      ∧ (notifySlack (sampleWorld openPR) (notificationFor "/repos/octo//issues/0")).trace.head?
        = some (Event.pullRequestsGet "octo" "" 0) := by
  decide

/-- C9 as amended. Whenever the resolver step of `notifySlack` succeeds, the
notification has a reference URL that parsed, its path has at least five
segments, owner and repo are the second and the third segment as they stand
(possibly empty), the number is what `strconv.Atoi` makes of the fifth
segment, a signed decimal integer of the 64-bit range (possibly zero or
negative), and these are the values of the fetch. A URL of at least five
segments whose fifth segment is not a signed decimal integer is rejected with
the error of `strconv.Atoi`, before any call. -/
theorem resolver_accepts_what_atoi_accepts (w : World) (n : Notification) :
    (∀ r, resolve w n = Outcome.ret (Except.ok r) →
        ∃ raw parsed, n = notificationFor raw ∧ (w.urlParse raw).1 = some parsed
          ∧ 5 ≤ (pathSegments parsed).length
          ∧ r.owner = (pathSegments parsed).getD 1 ""
          ∧ r.repo = (pathSegments parsed).getD 2 ""
          ∧ strconvAtoi ((pathSegments parsed).getD 4 "") = Except.ok r.num
          ∧ isSignedDecimal ((pathSegments parsed).getD 4 "") = true
          ∧ -(2 : Int) ^ 63 ≤ r.num ∧ r.num < (2 : Int) ^ 63
          ∧ (notifySlack w n).trace.head? = some (Event.pullRequestsGet r.owner r.repo r.num))
      ∧ (∀ raw parsed, n = notificationFor raw → (w.urlParse raw).1 = some parsed →
          5 ≤ (pathSegments parsed).length →
          isSignedDecimal ((pathSegments parsed).getD 4 "") = false →
          notifySlack w n = ⟨[], Outcome.ret
            (some (GoError.numError ((pathSegments parsed).getD 4 "")))⟩) := by
  constructor
  · intro r hres
    obtain ⟨raw, parsed, hn, hparse⟩ := resolve_ok_url w n r hres
    refine ⟨raw, parsed, hn, hparse, ?_⟩
    have hfirst := notifySlack_first_call w n r hres
    subst hn
    rw [resolve_parsed w raw parsed hparse] at hres
    by_cases h3 : (pathSegments parsed).length ≤ 3
    · simp [h3] at hres
    · by_cases h4 : (pathSegments parsed).length ≤ 4
      · simp [h3, h4] at hres
      · simp only [h3, h4, if_false] at hres
        rcases ha : strconvAtoi ((pathSegments parsed).getD 4 "") with e | num
        · rw [ha] at hres
          simp only [Outcome.ret.injEq] at hres
          cases hres
        · rw [ha] at hres
          simp only [Outcome.ret.injEq, Except.ok.injEq] at hres
          subst hres
          have hok := strconvAtoi_ok _ _ ha
          exact ⟨by omega, rfl, rfl, rfl, hok.1, hok.2.1, hok.2.2, hfirst⟩
  · intro raw parsed hn hparse hlen hdec
    subst hn
    apply notifySlack_resolve_error
    rw [resolve_parsed w raw parsed hparse, strconvAtoi_not_decimal _ hdec]
    have h3 : ¬ (pathSegments parsed).length ≤ 3 := by omega
    have h4 : ¬ (pathSegments parsed).length ≤ 4 := by omega
    simp only [h3, h4, if_false]

/-- Witness of C9 as amended: the sample URL resolves, a URL with the number
segment `x1` is rejected. -/
theorem resolver_accepts_what_atoi_accepts_witness :
    (∃ raw parsed, notificationFor sampleURL = notificationFor raw
        ∧ ((sampleWorld openPR).urlParse raw).1 = some parsed
        ∧ 5 ≤ (pathSegments parsed).length
        ∧ sampleResolved.owner = (pathSegments parsed).getD 1 ""
        ∧ sampleResolved.repo = (pathSegments parsed).getD 2 ""
        ∧ strconvAtoi ((pathSegments parsed).getD 4 "") = Except.ok sampleResolved.num
        ∧ isSignedDecimal ((pathSegments parsed).getD 4 "") = true
        ∧ -(2 : Int) ^ 63 ≤ sampleResolved.num ∧ sampleResolved.num < (2 : Int) ^ 63
        ∧ (notifySlack (sampleWorld openPR) (notificationFor sampleURL)).trace.head?
          = some (Event.pullRequestsGet sampleResolved.owner sampleResolved.repo
              sampleResolved.num))
      ∧ notifySlack (sampleWorld openPR) (notificationFor "/repos/octo/repo/pull/x1")
        = ⟨[], Outcome.ret (some (GoError.numError "x1"))⟩ :=
  ⟨(resolver_accepts_what_atoi_accepts (sampleWorld openPR) (notificationFor sampleURL)).1
      sampleResolved (by decide),
    (resolver_accepts_what_atoi_accepts (sampleWorld openPR)
      (notificationFor "/repos/octo/repo/pull/x1")).2
      "/repos/octo/repo/pull/x1" { Path := "/repos/octo/repo/pull/x1" } rfl rfl
      (by decide) (by decide)⟩

/-! ## The polling loop -/

theorem notifyAll_all_ok (w : World) (ns : List Notification)
    (h : ∀ n ∈ ns, (notifySlack w n).out = Outcome.ret none) :
    notifyAll w ns = ⟨ns.flatMap (fun n => (notifySlack w n).trace), Outcome.ret none⟩ := by
  induction ns with
  | nil => rfl
  | cons n rest ih =>
    have h1 := h n (List.mem_cons_self _ _)
    have h2 := ih (fun m hm => h m (List.mem_cons_of_mem _ hm))
    simp [notifyAll, h1, h2]

theorem notifyAll_first_error (w : World) (pre post : List Notification) (bad : Notification)
    (e : GoError) (hpre : ∀ n ∈ pre, (notifySlack w n).out = Outcome.ret none)
    (hbad : (notifySlack w bad).out = Outcome.ret (some e)) :
    notifyAll w (pre ++ bad :: post)
      = ⟨(pre ++ [bad]).flatMap (fun n => (notifySlack w n).trace), Outcome.ret (some e)⟩ := by
  induction pre with
  | nil => simp [notifyAll, hbad, errorsTrace]
  | cons n rest ih =>
    have h1 := hpre n (List.mem_cons_self _ _)
    have h2 := ih (fun m hm => hpre m (List.mem_cons_of_mem _ hm))
    simp only [List.cons_append, notifyAll, h1, h2]
    simp [h2]

theorem notifyAll_error_origin (w : World) (ns : List Notification) (e : GoError)
    (h : (notifyAll w ns).out = Outcome.ret (some e)) :
    ∃ n ∈ ns, (notifySlack w n).out = Outcome.ret (some e) := by
  induction ns with
  | nil => simp [notifyAll] at h
  | cons n rest ih =>
    unfold notifyAll at h
    rcases h1 : (notifySlack w n).out with (_ | e1) | q | _
    · simp only [h1] at h
      obtain ⟨m, hm, hme⟩ := ih h
      exact ⟨m, List.mem_cons_of_mem _ hm, hme⟩
    · simp only [h1, errorsTrace, Outcome.ret.injEq, Option.some.injEq] at h
      subst h
      exact ⟨n, List.mem_cons_self _ _, h1⟩
    · simp [h1] at h
    · simp [h1] at h

theorem getNotifications_ok (w : World) (since before : Time) (ns : List Notification)
    (h : w.listNotifications { All := true, Since := since, Before := before } = (ns, none)) :
    getNotifications w since before
      = ⟨[Event.listNotifications { All := true, Since := since, Before := before }],
          Outcome.ret (ns, none)⟩ := by
  simp [getNotifications, h]

theorem getNotifications_error (w : World) (since before : Time) (x : List Notification)
    (e : GoError)
    (h : w.listNotifications { All := true, Since := since, Before := before } = (x, some e)) :
    getNotifications w since before
      = ⟨[Event.listNotifications { All := true, Since := since, Before := before }],
          Outcome.ret ([], some e)⟩ := by
  simp [getNotifications, h, errorsTrace]

theorem getNotifications_trace (w : World) (since before : Time) :
    (getNotifications w since before).trace
      = [Event.listNotifications { All := true, Since := since, Before := before }] := by
  rcases h : w.listNotifications { All := true, Since := since, Before := before }
    with ⟨x, _ | e⟩
  · rw [getNotifications_ok w since before x h]
  · rw [getNotifications_error w since before x e h]

theorem dispatch_windows (w : World) (r : Resolved) (status : String) :
    windows (dispatch w r status).trace = [] := by
  unfold dispatch
  rcases w.osArgs[3]? with _ | url
  · rfl
  · simp only
    by_cases hm : status = "Merged"
    · simp only [hm, if_true]
      rcases (autoSetup w r.owner r.repo).out with (_ | e) | q | _ <;>
        simp [windows_append, (autoSetup_observations w r.owner r.repo).2.2,
          (sendPayload_observations w url (mergedAttachment r "Merged")).2.2.1]
    · simp only [hm, if_false]
      exact (sendPayload_observations w url (baseAttachment r status)).2.2.1

theorem notifySlack_windows (w : World) (n : Notification) :
    windows (notifySlack w n).trace = [] := by
  unfold notifySlack
  rcases resolve w n with (e | r) | q | _ <;> try rfl
  simp only
  rcases w.pullRequestsGet r.owner r.repo r.num with ⟨_ | pr, _ | e⟩ <;> try rfl
  simp only
  rcases prStatus pr with status | q | _ <;> try rfl
  simp only [List.singleton_append, windows]
  exact dispatch_windows w r status

theorem notifyAll_windows (w : World) (ns : List Notification) :
    windows (notifyAll w ns).trace = [] := by
  induction ns with
  | nil => rfl
  | cons n rest ih =>
    unfold notifyAll
    rcases h : (notifySlack w n).out with (_ | e) | q | _ <;>
      simp [h, windows_append, notifySlack_windows, ih]

theorem notifyAll_error_split (w : World) (ns : List Notification) (e : GoError)
    (h : (notifyAll w ns).out = Outcome.ret (some e)) :
    ∃ pre bad post, ns = pre ++ bad :: post
      ∧ (∀ n ∈ pre, (notifySlack w n).out = Outcome.ret none)
      ∧ (notifySlack w bad).out = Outcome.ret (some e) := by
  induction ns with
  | nil => simp [notifyAll] at h
  | cons n rest ih =>
    unfold notifyAll at h
    rcases h1 : (notifySlack w n).out with (_ | e1) | q | _
    · simp only [h1] at h
      obtain ⟨pre, bad, post, hns, hpre, hbad⟩ := ih h
      refine ⟨n :: pre, bad, post, by rw [hns]; rfl, ?_, hbad⟩
      intro m hm
      rcases List.mem_cons.1 hm with hm | hm
      · rw [hm]; exact h1
      · exact hpre m hm
    · simp only [h1, errorsTrace, Outcome.ret.injEq, Option.some.injEq] at h
      subst h
      exact ⟨[], n, rest, rfl, fun m hm => absurd hm (List.not_mem_nil m), h1⟩
    · simp [h1] at h
    · simp [h1] at h

theorem notifyAll_ok_all (w : World) (ns : List Notification)
    (h : (notifyAll w ns).out = Outcome.ret none) :
    ∀ n ∈ ns, (notifySlack w n).out = Outcome.ret none := by
  induction ns with
  | nil => intro n hn; exact absurd hn (List.not_mem_nil n)
  | cons m rest ih =>
    unfold notifyAll at h
    rcases h1 : (notifySlack w m).out with (_ | e1) | q | _
    · simp only [h1] at h
      intro n hn
      rcases List.mem_cons.1 hn with hn | hn
      · rw [hn]; exact h1
      · exact ih h n hn
    · simp [h1] at h
    · simp [h1] at h
    · simp [h1] at h

/-- Where a returned error of the polling loop comes from: the loop returns
at one tick `k`, whose window is the last one asked for; at every tick before
it the feed call made succeeded and `notifySlack` returned nil on every record
of its answer; at tick `k` either the feed call made returned the error, or it
succeeded and the first record on which `notifySlack` did not return nil
returned the error. -/
theorem pollLoop_returned_origin (lastPolled : Time) (ticks : List Tick) (e : GoError)
    (h : (pollLoop lastPolled ticks).2 = LoopStatus.returned e) :
    ∃ k t' win, ticks[k]? = some t'
      ∧ (tickWindows lastPolled ticks)[k]? = some win
      ∧ windows (pollLoop lastPolled ticks).1 = (tickWindows lastPolled ticks).take (k + 1)
      ∧ (∀ j tj wj, j < k → ticks[j]? = some tj →
          (tickWindows lastPolled ticks)[j]? = some wj →
          ∃ ns, tj.world.listNotifications { All := true, Since := wj.1, Before := wj.2 }
              = (ns, none)
            ∧ ∀ n ∈ ns, (notifySlack tj.world n).out = Outcome.ret none)
      ∧ ((∃ x, t'.world.listNotifications { All := true, Since := win.1, Before := win.2 }
            = (x, some e))
        ∨ (∃ pre bad post,
            t'.world.listNotifications { All := true, Since := win.1, Before := win.2 }
              = (pre ++ bad :: post, none)
            ∧ (∀ n ∈ pre, (notifySlack t'.world n).out = Outcome.ret none)
            ∧ (notifySlack t'.world bad).out = Outcome.ret (some e))) := by
  induction ticks generalizing lastPolled with
  | nil => simp [pollLoop] at h
  | cons t1 rest ih =>
    rcases hf : t1.world.listNotifications
        { All := true, Since := timeAdd lastPolled (timeSecond * -1), Before := t1.now }
      with ⟨ns, _ | e1⟩
    · simp only [pollLoop, getNotifications_ok _ _ _ _ hf] at h ⊢
      have hw := notifyAll_windows t1.world ns
      rcases hn : (notifyAll t1.world ns).out with (_ | e2) | q | _
      · simp only [hn] at h ⊢
        obtain ⟨k, t', win, hk, hwin, htake, hbefore, hor⟩ := ih t1.now h
        refine ⟨k + 1, t', win, by simpa using hk, by simpa [tickWindows] using hwin, ?_, ?_, hor⟩
        · simp [windows_append, hw, windows, tickWindows, htake]
        · intro j tj wj hj htj hwj
          cases j with
          | zero =>
            simp only [List.getElem?_cons_zero, Option.some.injEq] at htj
            simp only [tickWindows, List.getElem?_cons_zero, Option.some.injEq] at hwj
            subst htj
            subst hwj
            exact ⟨ns, hf, notifyAll_ok_all _ _ hn⟩
          | succ j =>
            simp only [List.getElem?_cons_succ] at htj
            simp only [tickWindows, List.getElem?_cons_succ] at hwj
            exact hbefore j tj wj (by omega) htj hwj
      · simp only [hn, LoopStatus.returned.injEq] at h ⊢
        subst h
        obtain ⟨pre, bad, post, hns, hpre, hbad⟩ := notifyAll_error_split _ _ _ hn
        refine ⟨0, t1, (timeAdd lastPolled (timeSecond * -1), t1.now), by simp, by simp [tickWindows],
          ?_, ?_, ?_⟩
        · simp [windows_append, hw, windows, tickWindows]
        · intro j tj wj hj
          omega
        · exact Or.inr ⟨pre, bad, post, by rw [← hns]; exact hf, hpre, hbad⟩
      · simp [hn] at h
      · simp [hn] at h
    · simp only [pollLoop, getNotifications_error _ _ _ _ _ hf, errorsTrace,
        LoopStatus.returned.injEq] at h ⊢
      subst h
      refine ⟨0, t1, (timeAdd lastPolled (timeSecond * -1), t1.now), by simp, by simp [tickWindows],
          ?_, ?_, ?_⟩
      · simp [windows, tickWindows]
      · intro j tj wj hj
        omega
      · exact Or.inl ⟨ns, hf⟩

/-- C4, the claim fails: with a feed of two records of which the first does
not resolve, `forPRChange` returns the `notifySlack` error during the first
tick. The second record is never attempted (no fetch, no send) and the second
tick is never polled, although the feed itself did not fail. -/
theorem record_error_aborts_scheduler :
    forPRChange 0 [{ now := 2000000000, world := badFeedWorld },
                   { now := 4000000000, world := badFeedWorld }]
      = ([Event.listNotifications { All := true, Since := -1000000000, Before := 2000000000 }],
          LoopStatus.returned (GoError.numError "x")) := by
  decide

/-- C4 as amended. In one tick of `forPRChange` whose feed call succeeded: when
`notifySlack` returns an error on a record after returning nil on the records
before it, `forPRChange` returns that error there (no later record is
attempted, no further tick is polled); when `notifySlack` returns nil on every
record, every record is attempted in order, the next window starts from this
tick's `now` and the loop goes on. When the feed call itself fails,
`forPRChange` returns that error. Whenever `forPRChange` returns an error, it
does so at one tick `k`, whose window `(lastPolled - 1s, now)` is the last one
asked of the feed: at every tick before it the feed call made succeeded and
`notifySlack` returned nil on every record of its answer, and at tick `k`
either the feed call made for that window returned the error, or it succeeded
and the error is the one `notifySlack` returned on a record of its answer,
after returning nil on every record before it. -/
theorem forPRChange_stops_at_first_record_error (start : Time) (t : Tick) (later : List Tick) :
    (∀ ns pre bad post e,
        t.world.listNotifications
          { All := true, Since := timeAdd start (timeSecond * -1), Before := t.now } = (ns, none) →
        ns = pre ++ bad :: post →
        (∀ n ∈ pre, (notifySlack t.world n).out = Outcome.ret none) →
        (notifySlack t.world bad).out = Outcome.ret (some e) →
        forPRChange start (t :: later)
          = (Event.listNotifications
                { All := true, Since := timeAdd start (timeSecond * -1), Before := t.now } ::
              (pre ++ [bad]).flatMap (fun n => (notifySlack t.world n).trace),
             LoopStatus.returned e))
      ∧ (∀ ns,
        t.world.listNotifications
          { All := true, Since := timeAdd start (timeSecond * -1), Before := t.now } = (ns, none) →
        (∀ n ∈ ns, (notifySlack t.world n).out = Outcome.ret none) →
        forPRChange start (t :: later)
          = (Event.listNotifications
                { All := true, Since := timeAdd start (timeSecond * -1), Before := t.now } ::
              (ns.flatMap (fun n => (notifySlack t.world n).trace)
                ++ (forPRChange t.now later).1),
             (forPRChange t.now later).2))
      ∧ (∀ x e,
        t.world.listNotifications
          { All := true, Since := timeAdd start (timeSecond * -1), Before := t.now }
            = (x, some e) →
        forPRChange start (t :: later)
          = ([Event.listNotifications
                { All := true, Since := timeAdd start (timeSecond * -1), Before := t.now }],
             LoopStatus.returned e))
      ∧ (∀ e, (forPRChange start (t :: later)).2 = LoopStatus.returned e →
          ∃ k t' win, (t :: later)[k]? = some t'
            ∧ (tickWindows start (t :: later))[k]? = some win
            ∧ windows (forPRChange start (t :: later)).1
                = (tickWindows start (t :: later)).take (k + 1)
            ∧ (∀ j tj wj, j < k → (t :: later)[j]? = some tj →
                (tickWindows start (t :: later))[j]? = some wj →
                ∃ ns, tj.world.listNotifications
                    { All := true, Since := wj.1, Before := wj.2 } = (ns, none)
                  ∧ ∀ n ∈ ns, (notifySlack tj.world n).out = Outcome.ret none)
            ∧ ((∃ x, t'.world.listNotifications
                    { All := true, Since := win.1, Before := win.2 } = (x, some e))
              ∨ (∃ pre bad post,
                  t'.world.listNotifications
                    { All := true, Since := win.1, Before := win.2 }
                      = (pre ++ bad :: post, none)
                  ∧ (∀ n ∈ pre, (notifySlack t'.world n).out = Outcome.ret none)
                  ∧ (notifySlack t'.world bad).out = Outcome.ret (some e)))) := by
  refine ⟨?_, ?_, ?_, ?_⟩
  · intro ns pre bad post e hfeed hns hpre hbad
    subst hns
    simp only [forPRChange, pollLoop, getNotifications_ok _ _ _ _ hfeed,
      notifyAll_first_error _ pre post bad e hpre hbad]
    simp
  · intro ns hfeed hall
    simp only [forPRChange, pollLoop, getNotifications_ok _ _ _ _ hfeed,
      notifyAll_all_ok _ ns hall]
    simp
  · intro x e hfeed
    simp only [forPRChange, pollLoop, getNotifications_error _ _ _ _ _ hfeed, errorsTrace]
  · intro e h
    exact pollLoop_returned_origin start (t :: later) e h

/-- Witness of C4 as amended: the feed whose first record fails, a feed whose
only record succeeds, and the origin of the error returned in the first. -/
theorem forPRChange_stops_at_first_record_error_witness :
    forPRChange 0 [{ now := 2000000000, world := badFeedWorld },
                   { now := 4000000000, world := badFeedWorld }]
        = (Event.listNotifications
              { All := true, Since := timeAdd 0 (timeSecond * -1), Before := 2000000000 } ::
            ([] ++ [notificationFor "/repos/octo/repo/pull/x"]).flatMap
              (fun n => (notifySlack badFeedWorld n).trace),
           LoopStatus.returned (GoError.numError "x"))
      ∧ forPRChange 0 [{ now := 2000000000, world := goodFeedWorld }]
        = (Event.listNotifications
              { All := true, Since := timeAdd 0 (timeSecond * -1), Before := 2000000000 } ::
            ([notificationFor sampleURL].flatMap (fun n => (notifySlack goodFeedWorld n).trace)
              ++ (forPRChange 2000000000 []).1),
           (forPRChange 2000000000 []).2)
      ∧ ∃ k t' win,
          ({ now := 2000000000, world := badFeedWorld } ::
            [({ now := 4000000000, world := badFeedWorld } : Tick)])[k]? = some t'
          ∧ (tickWindows 0 ({ now := 2000000000, world := badFeedWorld } ::
              [({ now := 4000000000, world := badFeedWorld } : Tick)]))[k]? = some win
          ∧ windows (forPRChange 0 ({ now := 2000000000, world := badFeedWorld } ::
              [({ now := 4000000000, world := badFeedWorld } : Tick)])).1
              = (tickWindows 0 ({ now := 2000000000, world := badFeedWorld } ::
                  [({ now := 4000000000, world := badFeedWorld } : Tick)])).take (k + 1)
          ∧ (∀ j tj wj, j < k →
              ({ now := 2000000000, world := badFeedWorld } ::
                [({ now := 4000000000, world := badFeedWorld } : Tick)])[j]? = some tj →
              (tickWindows 0 ({ now := 2000000000, world := badFeedWorld } ::
                [({ now := 4000000000, world := badFeedWorld } : Tick)]))[j]? = some wj →
              ∃ ns, tj.world.listNotifications
                  { All := true, Since := wj.1, Before := wj.2 } = (ns, none)
                ∧ ∀ n ∈ ns, (notifySlack tj.world n).out = Outcome.ret none)
          ∧ ((∃ x, t'.world.listNotifications
                  { All := true, Since := win.1, Before := win.2 }
                    = (x, some (GoError.numError "x")))
            ∨ (∃ pre bad post,
                t'.world.listNotifications
                  { All := true, Since := win.1, Before := win.2 }
                    = (pre ++ bad :: post, none)
                ∧ (∀ n ∈ pre, (notifySlack t'.world n).out = Outcome.ret none)
                ∧ (notifySlack t'.world bad).out
                    = Outcome.ret (some (GoError.numError "x")))) :=
  ⟨(forPRChange_stops_at_first_record_error 0 { now := 2000000000, world := badFeedWorld }
      [{ now := 4000000000, world := badFeedWorld }]).1
      [notificationFor "/repos/octo/repo/pull/x", notificationFor sampleURL] []
      (notificationFor "/repos/octo/repo/pull/x") [notificationFor sampleURL]
      (GoError.numError "x") (by decide) rfl (fun n hn => absurd hn (List.not_mem_nil n))
      (by decide),
    (forPRChange_stops_at_first_record_error 0 { now := 2000000000, world := goodFeedWorld }
      []).2.1 [notificationFor sampleURL] (by decide) (by decide),
    (forPRChange_stops_at_first_record_error 0 { now := 2000000000, world := badFeedWorld }
      [{ now := 4000000000, world := badFeedWorld }]).2.2.2
      (GoError.numError "x") (by decide)⟩

/-! ## The windows of the polling loop -/

theorem pollLoop_windows_initial (lastPolled : Time) (ticks : List Tick) :
    ∃ rest, tickWindows lastPolled ticks = windows (pollLoop lastPolled ticks).1 ++ rest := by
  induction ticks generalizing lastPolled with
  | nil => exact ⟨[], rfl⟩
  | cons t later ih =>
    obtain ⟨rest, hrest⟩ := ih t.now
    simp only [pollLoop, tickWindows]
    rcases hf : t.world.listNotifications
        { All := true, Since := timeAdd lastPolled (timeSecond * -1), Before := t.now }
      with ⟨ns, _ | e1⟩
    · simp only [getNotifications_ok _ _ _ _ hf]
      rcases hn : (notifyAll t.world ns).out with (_ | e2) | q | _
      · refine ⟨rest, ?_⟩
        have hw := notifyAll_windows t.world ns
        simp [windows_append, hw, windows, hrest]
      · refine ⟨tickWindows t.now later, ?_⟩
        have hw := notifyAll_windows t.world ns
        simp [windows_append, hw, windows]
      · refine ⟨tickWindows t.now later, ?_⟩
        have hw := notifyAll_windows t.world ns
        simp [windows_append, hw, windows]
      · refine ⟨tickWindows t.now later, ?_⟩
        have hw := notifyAll_windows t.world ns
        simp [windows_append, hw, windows]
    · simp only [getNotifications_error _ _ _ _ _ hf, windows]
      exact ⟨_, rfl⟩

/-- While the loop is still running, every tick has asked for its window. -/
theorem pollLoop_windows_running (lastPolled final : Time) (ticks : List Tick)
    (h : (pollLoop lastPolled ticks).2 = LoopStatus.running final) :
    windows (pollLoop lastPolled ticks).1 = tickWindows lastPolled ticks := by
  induction ticks generalizing lastPolled with
  | nil => rfl
  | cons t later ih =>
    rcases hf : t.world.listNotifications
        { All := true, Since := timeAdd lastPolled (timeSecond * -1), Before := t.now }
      with ⟨ns, _ | e1⟩
    · simp only [pollLoop, getNotifications_ok _ _ _ _ hf] at h ⊢
      have hw := notifyAll_windows t.world ns
      rcases hn : (notifyAll t.world ns).out with (_ | e2) | q | _
      · simp only [hn] at h ⊢
        simp [windows_append, hw, windows, tickWindows, ih t.now h]
      · simp [hn] at h
      · simp [hn] at h
      · simp [hn] at h
    · simp only [pollLoop, getNotifications_error _ _ _ _ _ hf] at h
      cases h

theorem tickWindows_chain (lastPolled : Time) (ticks : List Tick) (k : Nat)
    (w1 w2 : Time × Time)
    (h1 : (tickWindows lastPolled ticks)[k]? = some w1)
    (h2 : (tickWindows lastPolled ticks)[k + 1]? = some w2) :
    w2.1 = timeAdd w1.2 (timeSecond * -1) ∧ ∃ t, ticks[k]? = some t ∧ w1.2 = t.now := by
  induction ticks generalizing lastPolled k with
  | nil => simp [tickWindows] at h1
  | cons t later ih =>
    cases k with
    | zero =>
      simp only [tickWindows, List.getElem?_cons_zero, Option.some.injEq] at h1
      simp only [tickWindows, zero_add, List.getElem?_cons_succ] at h2
      subst h1
      cases later with
      | nil => simp [tickWindows] at h2
      | cons t2 later2 =>
        simp only [tickWindows, List.getElem?_cons_zero, Option.some.injEq] at h2
        subst h2
        exact ⟨rfl, t, rfl, rfl⟩
    | succ k =>
      simp only [tickWindows, List.getElem?_cons_succ] at h1 h2
      obtain ⟨hc, t', ht', hn⟩ := ih t.now k h1 h2
      exact ⟨hc, t', by simpa using ht', hn⟩

/-- C5. The windows `(since, before)` that `forPRChange` passes to
`getNotifications` are chained with an overlap of one second: whenever window
`k` and window `k + 1` were asked for, the `since` of window `k + 1` is the
`before` of window `k` minus `time.Second`, that is
`before k = since (k + 1) + 1s`, and the `before` of window `k` is the `now` of
tick `k`. -/
theorem forPRChange_windows_chained (start : Time) (ticks : List Tick) (k : Nat)
    (w1 w2 : Time × Time)
    (h1 : (windows (forPRChange start ticks).1)[k]? = some w1)
    (h2 : (windows (forPRChange start ticks).1)[k + 1]? = some w2) :
    w2.1 = timeAdd w1.2 (timeSecond * -1)
      ∧ w1.2 = w2.1 + timeSecond
      ∧ ∃ t, ticks[k]? = some t ∧ w1.2 = t.now := by
  obtain ⟨rest, hrest⟩ := pollLoop_windows_initial start ticks
  have hlt : k + 1 < (windows (pollLoop start ticks).1).length := by
    by_contra hge
    have : (windows (pollLoop start ticks).1)[k + 1]? = none :=
      List.getElem?_eq_none (by omega)
    unfold forPRChange at h2
    rw [this] at h2
    cases h2
  have g1 : (tickWindows start ticks)[k]? = some w1 := by
    rw [hrest, List.getElem?_append_left (by omega)]
    exact h1
  have g2 : (tickWindows start ticks)[k + 1]? = some w2 := by
    rw [hrest, List.getElem?_append_left hlt]
    exact h2
  obtain ⟨hc, ht⟩ := tickWindows_chain start ticks k w1 w2 g1 g2
  refine ⟨hc, ?_, ht⟩
  rw [hc]
  unfold timeAdd
  ring

/-- Witness of C5: three ticks over an empty feed; the first two windows. -/
theorem forPRChange_windows_chained_witness :
    (windows (forPRChange 0 [{ now := 2000000000, world := sampleWorld openPR },
        { now := 4000000005, world := sampleWorld openPR },
        { now := 6000000001, world := sampleWorld openPR }]).1)[0]?
        = some (-1000000000, 2000000000)
      ∧ (windows (forPRChange 0 [{ now := 2000000000, world := sampleWorld openPR },
        { now := 4000000005, world := sampleWorld openPR },
        { now := 6000000001, world := sampleWorld openPR }]).1)[0 + 1]?
        = some (1000000000, 4000000005)
      ∧ ((1000000000, 4000000005) : Time × Time).1
        = timeAdd ((-1000000000, 2000000000) : Time × Time).2 (timeSecond * -1) :=
  ⟨by decide, by decide,
    (forPRChange_windows_chained 0 [{ now := 2000000000, world := sampleWorld openPR },
        { now := 4000000005, world := sampleWorld openPR },
        { now := 6000000001, world := sampleWorld openPR }] 0
      (-1000000000, 2000000000) (1000000000, 4000000005) (by decide) (by decide)).1⟩

/-! ## Decimal numerals -/

theorem digitChar_decimal (k : Nat) (h : k < 10) :
    isDecimalDigit (Nat.digitChar k) = true ∧ (Nat.digitChar k).toNat - 48 = k
      ∧ Nat.digitChar k ≠ '/' ∧ Nat.digitChar k ≠ '-' ∧ Nat.digitChar k ≠ '+' := by
  interval_cases k <;> decide

theorem digitsValue_concat (xs : List Char) (d : Char) :
    digitsValue (xs ++ [d]) = digitsValue xs * 10 + (d.toNat - 48) := by
  simp [digitsValue, List.foldl_append]

theorem toDigitsCore_decimal (fuel n : Nat) (ds : List Char) (h : n < fuel) :
    ∃ xs, Nat.toDigitsCore 10 fuel n ds = xs ++ ds ∧ xs ≠ []
      ∧ (∀ c ∈ xs, isDecimalDigit c = true ∧ c ≠ '/' ∧ c ≠ '-' ∧ c ≠ '+')
      ∧ digitsValue xs = n := by
  induction fuel generalizing n ds with
  | zero => omega
  | succ fuel ih =>
    have hd := digitChar_decimal (n % 10) (Nat.mod_lt _ (by decide))
    unfold Nat.toDigitsCore
    by_cases h0 : n / 10 = 0
    · simp only [h0, if_true]
      refine ⟨[Nat.digitChar (n % 10)], rfl, by simp, ?_, ?_⟩
      · intro c hc
        simp only [List.mem_singleton] at hc
        subst hc
        exact ⟨hd.1, hd.2.2⟩
      · have hlt : n < 10 := by omega
        simp only [digitsValue, List.foldl_cons, List.foldl_nil, zero_mul, zero_add]
        rw [hd.2.1]
        exact Nat.mod_eq_of_lt hlt
    · simp only [h0, if_false]
      have hlt : n / 10 < fuel := by omega
      obtain ⟨xs, hxs, _, hall, hval⟩ := ih (n / 10) (Nat.digitChar (n % 10) :: ds) hlt
      refine ⟨xs ++ [Nat.digitChar (n % 10)], ?_, by simp, ?_, ?_⟩
      · rw [hxs]; simp
      · intro c hc
        rcases List.mem_append.1 hc with hc | hc
        · exact hall c hc
        · simp only [List.mem_singleton] at hc
          subst hc
          exact ⟨hd.1, hd.2.2⟩
      · rw [digitsValue_concat, hval, hd.2.1]
        omega

theorem toString_nat_decimal (n : Nat) :
    (toString n).data ≠ []
      ∧ (∀ c ∈ (toString n).data, isDecimalDigit c = true ∧ c ≠ '/' ∧ c ≠ '-' ∧ c ≠ '+')
      ∧ digitsValue (toString n).data = n := by
  obtain ⟨xs, hxs, hne, hall, hval⟩ := toDigitsCore_decimal (n + 1) n [] (Nat.lt_succ_self n)
  have hdata : (toString n).data = xs := by
    show Nat.toDigitsCore 10 (n + 1) n [] = xs
    rw [hxs, List.append_nil]
  rw [hdata]
  exact ⟨hne, hall, hval⟩

theorem strconvAtoi_toString (n : Nat) (h : n < 2 ^ 63) :
    strconvAtoi (toString n) = Except.ok (n : Int) := by
  obtain ⟨hne, hall, hval⟩ := toString_nat_decimal n
  unfold strconvAtoi
  have hatoi : atoiDigits (toString n) false (toString n).data = Except.ok (n : Int) := by
    unfold atoiDigits
    have hall2 : (toString n).data.all isDecimalDigit = true := by
      rw [List.all_eq_true]
      intro c hc
      exact (hall c hc).1
    rw [if_neg (by simp [hne, hall2])]
    simp only [hval, intSize, Bool.false_eq_true, if_false]
    rw [if_pos]
    constructor
    · have : (0 : Int) ≤ (n : Int) := Int.ofNat_nonneg n
      omega
    · have : (n : Int) < (2 : Int) ^ 63 := by exact_mod_cast h
      simpa using this
  split
  · rename_i rest hd
    have := (hall '-' (by rw [hd]; exact List.mem_cons_self _ _)).2.2.1
    exact absurd rfl this
  · rename_i rest hd
    have := (hall '+' (by rw [hd]; exact List.mem_cons_self _ _)).2.2.2
    exact absurd rfl this
  · exact hatoi

/-! ## Trimming and splitting a path -/

theorem splitChars_append_sep (sep : Char) (a b : List Char) (h : sep ∉ a) :
    splitChars sep (a ++ sep :: b) = a :: splitChars sep b := by
  induction a with
  | nil => simp [splitChars]
  | cons c a ih =>
    have hc : c ≠ sep := fun hc => h (hc ▸ List.mem_cons_self _ _)
    have ha : sep ∉ a := fun ha => h (List.mem_cons_of_mem _ ha)
    simp [splitChars, hc, ih ha]

theorem splitChars_no_sep (sep : Char) (a : List Char) (h : sep ∉ a) :
    splitChars sep a = [a] := by
  induction a with
  | nil => rfl
  | cons c a ih =>
    have hc : c ≠ sep := fun hc => h (hc ▸ List.mem_cons_self _ _)
    have ha : sep ∉ a := fun ha => h (List.mem_cons_of_mem _ ha)
    simp [splitChars, hc, ih ha]

theorem splitChars_head (sep : Char) (a t : List Char) (h : sep ∉ a)
    (ht : t = [] ∨ ∃ r, t = sep :: r) :
    ∃ rest, splitChars sep (a ++ t) = a :: rest := by
  rcases ht with ht | ⟨r, ht⟩
  · subst ht
    exact ⟨[], by rw [List.append_nil, splitChars_no_sep sep a h]⟩
  · subst ht
    exact ⟨_, splitChars_append_sep sep a r h⟩

theorem rdropWhile_keep (cut d : Char) (y t : List Char) (hd : d ≠ cut) :
    ∃ t' u, List.rdropWhile (fun c => c == cut) (y ++ d :: t) = y ++ d :: t' ∧ t = t' ++ u := by
  induction t using List.reverseRecOn with
  | nil =>
    refine ⟨[], [], ?_, rfl⟩
    rw [show y ++ d :: [] = y ++ [d] from rfl,
      List.rdropWhile_concat_neg _ _ _ (by simpa using hd)]
  | append_singleton t0 c ih =>
    obtain ⟨t', u, ht', hu⟩ := ih
    by_cases hc : c = cut
    · refine ⟨t', u ++ [c], ?_, by rw [hu]; simp⟩
      rw [show y ++ d :: (t0 ++ [c]) = (y ++ d :: t0) ++ [c] by simp,
        List.rdropWhile_concat_pos _ _ _ (by simpa using hc)]
      exact ht'
    · refine ⟨t0 ++ [c], [], ?_, by simp⟩
      rw [show y ++ d :: (t0 ++ [c]) = (y ++ d :: t0) ++ [c] by simp,
        List.rdropWhile_concat_neg _ _ _ (by simpa using hc)]

theorem initial_sep_shape (sep : Char) (t t' u : List Char) (hu : t = t' ++ u)
    (ht : t = [] ∨ ∃ r, t = sep :: r) : t' = [] ∨ ∃ r, t' = sep :: r := by
  cases t' with
  | nil => exact Or.inl rfl
  | cons c cs =>
    rcases ht with ht | ⟨r, ht⟩
    · rw [ht] at hu
      cases hu
    · rw [ht] at hu
      simp only [List.cons_append, List.cons.injEq] at hu
      exact Or.inr ⟨cs, by rw [hu.1]⟩

/-- The segments of a path `/pre/owner/repo/kind/digits` followed by nothing or
by a slash and anything: the first five are the five named pieces. -/
theorem split_trim_path (pre owner repo kind digits tail : List Char)
    (hpre : pre ≠ []) (hpreS : '/' ∉ pre) (hownerS : '/' ∉ owner) (hrepoS : '/' ∉ repo)
    (hkindS : '/' ∉ kind) (hdig : digits ≠ []) (hdigS : '/' ∉ digits)
    (htail : tail = [] ∨ ∃ r, tail = '/' :: r) :
    ∃ rest, splitChars '/' (trimChars '/'
        ('/' :: (pre ++ '/' :: (owner ++ '/' :: (repo ++ '/' :: (kind ++ '/' :: (digits ++ tail)))))))
      = pre :: owner :: repo :: kind :: digits :: rest := by
  obtain ⟨p0, ps, rfl⟩ := List.exists_cons_of_ne_nil hpre
  have hp0 : p0 ≠ '/' := fun h => hpreS (h ▸ List.mem_cons_self _ _)
  obtain ⟨ds, d, rfl⟩ : ∃ ds d, digits = ds ++ [d] :=
    ⟨digits.dropLast, digits.getLast hdig, (List.dropLast_append_getLast hdig).symm⟩
  have hd : d ≠ '/' := fun h => hdigS (h ▸ by simp)
  have hdrop : List.dropWhile (fun c => c == '/')
      ('/' :: (p0 :: ps ++ '/' :: (owner ++ '/' :: (repo ++ '/' :: (kind ++ '/' ::
        (ds ++ [d] ++ tail))))))
      = (p0 :: ps ++ '/' :: (owner ++ '/' :: (repo ++ '/' :: (kind ++ '/' :: ds)))) ++ d :: tail := by
    have hb : (p0 == '/') = false := by simpa using hp0
    simp [List.dropWhile, hb]
  obtain ⟨t', u, ht', hu⟩ := rdropWhile_keep '/' d
    (p0 :: ps ++ '/' :: (owner ++ '/' :: (repo ++ '/' :: (kind ++ '/' :: ds)))) tail hd
  have hshape := initial_sep_shape '/' tail t' u hu htail
  obtain ⟨rest, hrest⟩ := splitChars_head '/' (ds ++ [d]) t' hdigS hshape
  refine ⟨rest, ?_⟩
  unfold trimChars
  rw [hdrop, ht']
  have hre : (p0 :: ps ++ '/' :: (owner ++ '/' :: (repo ++ '/' :: (kind ++ '/' :: ds)))) ++ d :: t'
      = (p0 :: ps) ++ '/' :: (owner ++ '/' :: (repo ++ '/' :: (kind ++ '/' :: (ds ++ [d] ++ t')))) := by
    simp
  rw [hre, splitChars_append_sep _ _ _ hpreS, splitChars_append_sep _ _ _ hownerS,
    splitChars_append_sep _ _ _ hrepoS, splitChars_append_sep _ _ _ hkindS, hrest]

/-! ## The resolver step on well-formed paths -/

theorem pathSegments_api_path (parsed : URL) (pre owner repo kind tail : String) (N : Nat)
    (hpath : parsed.Path
      = "/" ++ pre ++ "/" ++ owner ++ "/" ++ repo ++ "/" ++ kind ++ "/" ++ toString N ++ tail)
    (hpre : pre ≠ "") (hpreS : '/' ∉ pre.data) (hownerS : '/' ∉ owner.data)
    (hrepoS : '/' ∉ repo.data) (hkindS : '/' ∉ kind.data)
    (htail : tail = "" ∨ ∃ rest : String, tail = "/" ++ rest) :
    ∃ rest, pathSegments parsed = pre :: owner :: repo :: kind :: toString N :: rest := by
  obtain ⟨hne, hall, _⟩ := toString_nat_decimal N
  have hdigS : '/' ∉ (toString N).data := fun hm => (hall '/' hm).2.1 rfl
  have hpre' : pre.data ≠ [] := by
    intro h
    apply hpre
    cases pre
    simp only at h
    subst h
    rfl
  have htail' : tail.data = [] ∨ ∃ r, tail.data = '/' :: r := by
    rcases htail with h | ⟨rest, h⟩
    · subst h; exact Or.inl rfl
    · subst h; exact Or.inr ⟨rest.data, by simp⟩
  obtain ⟨rest, hrest⟩ := split_trim_path pre.data owner.data repo.data kind.data
    (toString N).data tail.data hpre' hpreS hownerS hrepoS hkindS hne hdigS htail'
  refine ⟨rest.map String.mk, ?_⟩
  have hdata : parsed.Path.data = '/' :: (pre.data ++ '/' :: (owner.data ++ '/' ::
      (repo.data ++ '/' :: (kind.data ++ '/' :: ((toString N).data ++ tail.data))))) := by
    rw [hpath]
    simp [String.data_append]
  unfold pathSegments stringsSplit stringsTrim
  simp only [hdata, hrest, List.map_cons]

/-- C1, the claim fails: on the path `/octo/repo/issues/42/comments/7` the
resolver step reads `repo` as owner, `issues` as repo and `comments` as the
number; `notifySlack` returns the error of `strconv.Atoi` and never fetches
a pull request. -/
theorem resolver_rejects_claimed_path :
    notifySlack (sampleWorld mergedPR) (notificationFor "/octo/repo/issues/42/comments/7")
      = ⟨[], Outcome.ret (some (GoError.numError "comments"))⟩ := by
  decide

/-- C1 as amended. For every reference URL whose path has the form
`/<prefix>/owner/repo/<kind>/N/...`, with one more leading segment than the
claim has (the `repos` of the GitHub API; non-empty), segments without
slashes, `N` a decimal numeral below `2^63` and then nothing or a slash and
anything, the resolver step of `notifySlack` succeeds with owner, repo and `N`,
the fourth segment replaced by `pull`, and these are the values of the
pull-request fetch, the first call made. -/
theorem resolver_on_api_path (w : World) (raw : String) (parsed : URL)
    (pre owner repo kind tail : String) (N : Nat)
    (hparse : (w.urlParse raw).1 = some parsed)
    (hpath : parsed.Path
      = "/" ++ pre ++ "/" ++ owner ++ "/" ++ repo ++ "/" ++ kind ++ "/" ++ toString N ++ tail)
    (hpre : pre ≠ "") (hpreS : '/' ∉ pre.data) (hownerS : '/' ∉ owner.data)
    (hrepoS : '/' ∉ repo.data) (hkindS : '/' ∉ kind.data)
    (htail : tail = "" ∨ ∃ rest : String, tail = "/" ++ rest)
    (hN : N < 2 ^ 63) :
    (∃ rest, resolve w (notificationFor raw) = Outcome.ret (Except.ok
        { parts := pre :: owner :: repo :: "pull" :: toString N :: rest
          owner := owner, repo := repo, num := (N : Int) }))
      ∧ (notifySlack w (notificationFor raw)).trace.head?
        = some (Event.pullRequestsGet owner repo (N : Int)) := by
  obtain ⟨rest, hseg⟩ := pathSegments_api_path parsed pre owner repo kind tail N hpath hpre
    hpreS hownerS hrepoS hkindS htail
  have hres : resolve w (notificationFor raw) = Outcome.ret (Except.ok
      { parts := pre :: owner :: repo :: "pull" :: toString N :: rest
        owner := owner, repo := repo, num := (N : Int) }) := by
    rw [resolve_parsed w raw parsed hparse, hseg]
    simp [List.getD, strconvAtoi_toString N hN]
  exact ⟨⟨rest, hres⟩, notifySlack_first_call w _ _ hres⟩

/-- Witness of C1 as amended: the path of the end-to-end scenario behind the
segment `repos`. -/
theorem resolver_on_api_path_witness :
    (∃ rest, resolve (sampleWorld mergedPR) (notificationFor sampleURL) = Outcome.ret (Except.ok
        { parts := "repos" :: "octo" :: "repo" :: "pull" :: toString 42 :: rest
          owner := "octo", repo := "repo", num := ((42 : Nat) : Int) }))
      ∧ (notifySlack (sampleWorld mergedPR) (notificationFor sampleURL)).trace.head?
        = some (Event.pullRequestsGet "octo" "repo" ((42 : Nat) : Int)) :=
  resolver_on_api_path (sampleWorld mergedPR) sampleURL { Path := sampleURL }
    "repos" "octo" "repo" "issues" "/comments/7" 42 rfl (by decide) (by decide) (by decide)
    (by decide) (by decide) (by decide) (Or.inr ⟨"comments/7", by decide⟩) (by decide)

end Prbot
